import Mathlib

/-!
Verification development for the jaxom-ts XML-to-object converter
(src/lib/converter/xpath-converter.impl.ts, src/lib/types.ts).

The embedding models:
  * JavaScript values produced by the converter (`JValue`), with JS objects
    as insertion-ordered association lists with unique keys (`JObj` helpers
    mirror Ramda's `R.keys` / `R.mergeAll` / `R.set` / `R.dissoc` /
    `R.fromPairs` semantics);
  * the error classes of src/lib/converter/exceptions
    (`JaxConfigError`, `JaxSolicitedError`, `JaxParseError`,
    `JaxInternalError`) as an error inductive, with build functions
    returning `Except JaxError`;
  * the DOM tree consumed through xpath-ts as `XNode` (element name,
    attributes in document order, element children in document order, and
    the data of the direct text/CDATA children in document order);
  * the specification collaborator (`fetchSpecOption`, an external
    interface per the design: options are consumed already resolved
    against the fallback spec) as the structure `SpecOptions`;
  * recursion of `buildElement` (which is not structurally decreasing
    because inheritance jumps to arbitrary sibling nodes) via an explicit
    fuel parameter; `JaxError.fuelExhausted` is an artifact of the
    embedding and is unreachable with sufficient fuel.
-/

/-- A JavaScript value as produced by the converter: strings, numbers,
booleans, `null`, moment dates (kept as their raw source text), symbols
(`Symbol(s)` / `Symbol.for(s)`, distinguished by the global flag), arrays,
plain objects, and the typed collections made by `createTypedCollection`
(`Int8Array`, `Set`, `Map`, ..., tagged by their lower-cased type name). -/
inductive JValue where
  | null : JValue
  | str : String → JValue
  | num : Int → JValue
  | bool : Bool → JValue
  | date : String → JValue
  | symbol : String → Bool → JValue
  | arr : List JValue → JValue
  | obj : List (String × JValue) → JValue
  | typed : String → List JValue → JValue
deriving Repr

mutual
/-- `R.equals`: deep structural equality of JS values, used by
`R.includes` (the circular-reference check and the collision scan). -/
def jvBeq : JValue → JValue → Bool
  | .null, .null => true
  | .str a, .str b => a == b
  | .num a, .num b => a == b
  | .bool a, .bool b => a == b
  | .date a, .date b => a == b
  | .symbol a ga, .symbol b gb => a == b && ga == gb
  | .arr xs, .arr ys => jvBeqList xs ys
  | .obj xs, .obj ys => jvBeqPairs xs ys
  | .typed t xs, .typed u ys => t == u && jvBeqList xs ys
  | _, _ => false
termination_by structural v => v

/-- Elementwise `jvBeq` on arrays. -/
def jvBeqList : List JValue → List JValue → Bool
  | [], [] => true
  | x :: xs, y :: ys => jvBeq x y && jvBeqList xs ys
  | _, _ => false
termination_by structural l => l

/-- Elementwise `jvBeq` on object entry lists. -/
def jvBeqPairs : List (String × JValue) → List (String × JValue) → Bool
  | [], [] => true
  | (k, v) :: xs, (l, w) :: ys => k == l && jvBeq v w && jvBeqPairs xs ys
  | _, _ => false
termination_by structural l => l
end

/-- `R.equals` lifted to possibly-`undefined` values (`Option JValue`):
`undefined` equals `undefined`. -/
def optJvBeq : Option JValue → Option JValue → Bool
  | none, none => true
  | some a, some b => jvBeq a b
  | _, _ => false

/-- A JavaScript object: keys in insertion order.  JS objects never hold a
key twice; universal theorems that need this state it as a `Nodup`
hypothesis on the key list. -/
abbrev JObj := List (String × JValue)

/-- `R.keys`: the keys of an object in insertion order. -/
def jKeys (o : JObj) : List String := o.map (·.1)

/-- Property read `o[k]` (objects built by the converter have unique keys,
so the first match is the value). -/
def jGet (o : JObj) (k : String) : Option JValue := o.lookup k

/-- `R.has` / `R.includes(k, R.keys o)`. -/
def jHas (o : JObj) (k : String) : Bool := o.any (fun p => p.1 == k)

/-- Property write `o[k] = v` (also `R.set (R.lensProp k)`): replaces the
value in place when the key exists, else appends — JS insertion-order
semantics. -/
def jSet (o : JObj) (k : String) (v : JValue) : JObj :=
  cond (jHas o k) (o.map (fun p => cond (p.1 == k) (k, v) p))
    (o ++ [(k, v)])

/-- `R.dissoc k o`: drop the key, keep the order of the rest. -/
def jErase (o : JObj) (k : String) : JObj := o.filter (fun p => p.1 ≠ k)

/-- `R.mergeAll [a, b]` (object spread `{...a, ...b}`): `b`'s entries
override `a`'s; `b`'s fresh keys are appended in order. -/
def jMergeAll (a b : JObj) : JObj := b.foldl (fun acc p => jSet acc p.1 p.2) a

/-- `R.fromPairs`: build an object from (key, value) pairs; a repeated key
keeps its first position with its last value, as in JS. -/
def jFromPairs (ps : List (String × JValue)) : JObj :=
  ps.foldl (fun acc p => jSet acc p.1 p.2) []

/-- Read `element[id]` where `id` is the (optional) identifier attribute
name from the parse info.  JS evaluates `element[undefined]` as a lookup of
the key `"undefined"`. -/
def jGetId (o : JObj) (id : Option String) : Option JValue :=
  match id with
  | some s => jGet o s
  | none => jGet o "undefined"

/-- `R.has(id)` on a built element, with the same `undefined`-key
stringification as `jGetId`. -/
def jHasId (o : JObj) (id : Option String) : Bool :=
  match id with
  | some s => jHas o s
  | none => jHas o "undefined"

/-- Value read `v[k]` on an arbitrary JS value (`R.prop`): only objects
have properties here. -/
def jvGet (v : JValue) (id : Option String) : Option JValue :=
  match v with
  | .obj o => jGetId o id
  | _ => none

/-- `R.concat` on the values stored under a descendants key.  JS arrays and
strings concatenate; any other operand combination makes `R.concat` throw a
`TypeError` at runtime — that crash is outside the modelled error space, so
the function is total with the first operand as a junk fallback, and every
theorem touching it restricts to the array case. -/
def jvConcat (a b : JValue) : JValue :=
  match a, b with
  | .arr xs, .arr ys => .arr (xs ++ ys)
  | .str x, .str y => .str (x ++ y)
  | _, _ => a

/-- JS string coercion of a value used as an object key (`R.fromPairs`,
`R.indexBy`) or inside a template literal.  Rendering of composite values
is simplified (these strings are diagnostic-only and carry no
behaviour). -/
def JValue.asKey : JValue → String
  | .null => "null"
  | .str s => s
  | .num n => toString n
  | .bool b => if b then "true" else "false"
  | .date s => s
  | .symbol s _ => "Symbol(" ++ s ++ ")"
  | .arr _ => "[array]"
  | .obj _ => "[object]"
  | .typed t _ => "[" ++ t ++ "]"

/-- Diagnostic rendering of a value inside an error message (the source
uses `functify`, a JSON-style dump; composite values are rendered
schematically — the content of diagnostic strings carries no
behaviour). -/
def JValue.display : JValue → String := JValue.asKey

/-- The error classes of src/lib/converter/exceptions.
`fuelExhausted` is an artifact of the fuel-based embedding of the
recursion, unreachable for sufficient fuel; it corresponds to no source
error. -/
inductive JaxError where
  | config (message subject : String)
  | solicited (message subject : String)
  | parse (message subject : String)
  | internal (message origin : String)
  | fuelExhausted
deriving DecidableEq, Repr

/-- The result monad of the embedding: ordinary returns or a raised
exception. -/
abbrev JaxM (α : Type) := Except JaxError α

/-- `ITransformResult<T>`: a soft per-transformer outcome.
`succeeded = false` means "this transformer does not apply", not an
error. -/
structure TransformResult where
  value : JValue
  succeeded : Bool
deriving Repr

/- ## String utilities (JavaScript semantics on the inputs used here) -/

/-- JS `String.toLowerCase` on the ASCII names and tags used here,
character by character. -/
def jsToLower (s : String) : String := (s.data.map Char.toLower).asString

/-- JS `String.trim` (the whitespace set is Lean's `Char.isWhitespace`;
the inputs exercised here contain at most plain spaces). -/
def jsTrim (s : String) : String :=
  ((s.data.dropWhile Char.isWhitespace).reverse.dropWhile Char.isWhitespace).reverse.asString

/-- Worker for `jsSplit`: the runs between delimiter occurrences, scanning
left to right with an accumulator of the current run reversed and a count
of delimiter characters still being skipped (a matched delimiter's first
character is consumed at the match, the rest through the counter — the
next match can only start after the previous one ends, as with JS
`indexOf` scanning). -/
def splitChars (delim : List Char) : List Char → List Char → Nat → List (List Char)
  | [], acc, _ => [acc.reverse]
  | _ :: rest, acc, skip + 1 => splitChars delim rest acc skip
  | c :: rest, acc, 0 =>
    if delim ≠ [] ∧ delim.isPrefixOf (c :: rest) then
      acc.reverse :: splitChars delim rest [] (delim.length - 1)
    else
      splitChars delim rest (c :: acc) 0

/-- JS `String.split(delim)` with a literal delimiter, as used by
`R.split(',')` and the collection delimiters (`"".split(d) = [""]`, a
trailing delimiter yields a trailing `""`).  The converter's configured
delimiters are non-empty; the empty delimiter returns the input whole. -/
def jsSplit (delim s : String) : List String :=
  if delim.data = [] then [s]
  else (splitChars delim.data s.data [] 0).map List.asString

/-- JS `String.startsWith`, also the effect of the `'^' + escapeRegExp(x)`
anchored-literal regular expressions built by the converter. -/
def jsStartsWith (s pre : String) : Bool := pre.data.isPrefixOf s.data

/-- JS `String.endsWith`, also the effect of the `escapeRegExp(x) + '$'`
anchored-literal regular expressions built by the converter. -/
def jsEndsWith (s suf : String) : Bool := suf.data.reverse.isPrefixOf s.data.reverse

/-- Worker for `jsReplaceFirst`. -/
def replaceFirstChars (pat repl : List Char) : List Char → List Char
  | [] => []
  | c :: rest =>
    if pat ≠ [] ∧ pat.isPrefixOf (c :: rest) then
      repl ++ (c :: rest).drop pat.length
    else
      c :: replaceFirstChars pat repl rest

/-- JS `String.replace` with a literal pattern: replaces the first
occurrence only.  An empty pattern prepends the replacement (JS
behaviour). -/
def jsReplaceFirst (s pat repl : String) : String :=
  if pat.data = [] then repl ++ s
  else (replaceFirstChars pat.data repl.data s.data).asString

/-- The value of a non-empty all-digit decimal literal. -/
def parseDigitsNat : List Char → Option Nat
  | [] => none
  | cs =>
    if cs.all Char.isDigit then
      some (cs.foldl (fun acc c => acc * 10 + (c.toNat - '0'.toNat)) 0)
    else none

/-- JS `Number(s)` on a string, restricted to the integer literals the
converter feeds it: surrounding whitespace is trimmed, the empty (or
all-blank) string is `0`, an optional sign followed by decimal digits
parses, and everything else — including fractional, exponent and hex
forms, which no property below exercises — is `NaN` (`none`). -/
def jsNumber (s : String) : Option Int :=
  let t := (jsTrim s).data
  if t = [] then some 0
  else
    match t with
    | '-' :: rest => (parseDigitsNat rest).map (fun n => -(n : Int))
    | '+' :: rest => (parseDigitsNat rest).map (fun n => (n : Int))
    | _ => (parseDigitsNat t).map (fun n => (n : Int))

/- ## The specification collaborator

The converter reads its configuration exclusively through
`fetchSpecOption(path, fallBack)`, an external interface (the spec/option
loader with its fallback resolution is an excluded collaborator).
`SpecOptions` holds the value each consulted path resolves to, already
fallen back.  src does not contain specs.ts, so the concrete default spec
instance further below is modelled from the spec. -/

/-- The value-coercion context: `'attributes' | 'textNodes'`. -/
inductive ContextType where
  | attributes
  | textNodes
deriving DecidableEq, Repr

/-- The value fetched for `coercion/{context}/matchers/collection/assoc/keyType`
(or `valueType`): a single type-name string, an array of type-name strings,
or something else (which `transformAssoc` rejects as a configuration
error). -/
inductive AssocTypeSpec where
  | one (t : String)
  | many (ts : List String)
  | invalid
deriving DecidableEq, Repr

/-- The value fetched for `coercion/attributes/matchers`: an object whose
keys (in insertion order) name the matchers to try, or a non-object value
(which `coerceAttributeValue` rejects as an internal error). -/
inductive MatchersSpec where
  | obj (keys : List String)
  | notObj
deriving DecidableEq, Repr

/-- Per-context matcher options (paths under
`coercion/{context}/matchers/...`).  `dateIsValid` is an oracle for
`moment(dateValue, format).isValid()` — the moment library is an external
dependency, so date parsing enters the model as an opaque predicate on the
raw text. -/
structure MatcherOptions where
  primitives : List String
  dateIsValid : String → Bool
  symbolMarker : String
  symbolGlobal : Bool
  stringAcceptable : Bool
  collectionDelim : String
  collectionOpen : String
  collectionClose : String
  assocDelim : String
  assocKeyType : AssocTypeSpec
  assocValueType : AssocTypeSpec

/-- All spec options the converter consults, pre-resolved against the
fallback spec exactly as `fetchSpecOption` would (paths noted per
field). -/
structure SpecOptions where
  /-- `labels/element` -/
  elementLabel : String
  /-- `labels/attributes`, fetched with `fallBack = false`: absent unless
  the active spec sets it. -/
  attributesLabel : Option String
  /-- `labels/descendants` -/
  descendantsLabel : String
  /-- `labels/text` -/
  textLabel : String
  /-- whether `fetchSpecOption('coercion', false)` yields an object -/
  coercionActive : Bool
  /-- `coercion/attributes/matchers` -/
  attributeMatchers : MatchersSpec
  /-- `coercion/attributes/matchers/...` -/
  attributesOpts : MatcherOptions
  /-- `coercion/textNodes/matchers/...` -/
  textNodesOpts : MatcherOptions
  /-- `coercion/textNodes/trim` -/
  textTrim : Bool

/-- Select the per-context matcher options
(`coercion/${context}/matchers/...`). -/
def SpecOptions.opts (spec : SpecOptions) : ContextType → MatcherOptions
  | .attributes => spec.attributesOpts
  | .textNodes => spec.textNodesOpts

/-- Modelled from the spec: `CollectionTypePlaceHolder` lives in specs.ts,
which is not under src.  The collection `open` option contains this
placeholder; instantiating it for type tag `[]` must produce the default
open pattern `!<[]>[` documented in `transformCollection`. -/
def CollectionTypePlaceHolder : String := "<type>"

/- ## The transformer chain -/

/-- `transformNumber`: succeeds iff `Number(raw)` is not NaN; on failure
the original raw value is returned with `succeeded = false`. -/
def transformNumber (_subject s : String) : TransformResult :=
  match jsNumber s with
  | some n => ⟨.num n, true⟩
  | none => ⟨.str s, false⟩

/-- `transformBoolean` on a string raw value: case-insensitive
`"true"`/`"false"` succeed; anything else fails with a `false`
placeholder.  (The `R.is(Boolean)` branch of the source is reachable only
for non-string inputs, which DOM attribute and text values never are.) -/
def transformBoolean (_subject s : String) : TransformResult :=
  let lower := jsToLower s
  if lower == "true" then ⟨.bool true, true⟩
  else if lower == "false" then ⟨.bool false, true⟩
  else ⟨.bool false, false⟩

/-- `transformDate`: parse via the moment oracle; the (possibly invalid)
moment value is returned either way and the caller must check
`succeeded`. -/
def transformDate (spec : SpecOptions) (_subject s : String) (context : ContextType) :
    TransformResult :=
  ⟨.date s, (spec.opts context).dateIsValid s⟩

/-- `transformSymbol`: succeeds iff the raw string starts with the
configured prefix; a symbol (interned iff the `global` flag is set) is
constructed regardless of success. -/
def transformSymbol (spec : SpecOptions) (_subject s : String) (context : ContextType) :
    TransformResult :=
  let o := spec.opts context
  ⟨.symbol s o.symbolGlobal, jsStartsWith s o.symbolMarker⟩

/-- `transformString`: returns the raw value, unless the configuration
marks string coercion as disallowed for this context, in which case it
raises the hard, caller-visible (solicited) failure. -/
def transformString (spec : SpecOptions) (subject s : String) (context : ContextType) :
    JaxM TransformResult :=
  if !(spec.opts context).stringAcceptable then
    .error (.solicited "matching failed, terminated by string matcher." subject)
  else
    .ok ⟨.str s, true⟩

/-- `createTypedCollection`: the named typed collections keep their
(lower-cased) tag; any unknown tag falls back to `Array.from`. -/
def createTypedCollection (t : String) (collectionElements : List JValue) : JValue :=
  if t ∈ ["int8array", "uint8array", "uint8clampedarray", "int16array", "uint16array",
      "int32array", "uint32array", "float32array", "float64array", "set", "weakset",
      "map", "weakmap"] then
    .typed t collectionElements
  else
    .arr collectionElements

/-- `extractCoreCollectionValue`: strip a matched open prefix and close
suffix (the source's `replace(open, '')` removes the first occurrence,
which the guarding `startsWith` puts at position 0). -/
def extractCoreCollectionValue (openPat close collectionValue : String) : String :=
  if jsStartsWith collectionValue openPat && jsEndsWith collectionValue close then
    let coreValue := jsReplaceFirst collectionValue openPat ""
    (coreValue.data.take (coreValue.data.length - close.data.length)).asString
  else collectionValue

/-- Is this character matched by the class `[\w\[\]]` of `typeExpr`? -/
def typeTagChar (c : Char) : Bool :=
  c.isAlphanum || c == '_' || c == '[' || c == ']'

/-- The first match of `typeExpr = /\<(?<type>[\w\[\]]+)\>/`: scanning left
to right, a `<` followed by a non-empty maximal run of `[\w\[\]]`
characters and then `>` (the class excludes `>`, so the greedy run cannot
backtrack). -/
def findTypeTag : List Char → Option (List Char)
  | [] => none
  | '<' :: rest =>
    let run := rest.takeWhile typeTagChar
    if run ≠ [] ∧ (rest.drop run.length).take 1 = ['>'] then some run
    else findTypeTag rest
  | _ :: rest => findTypeTag rest

/-- `extractTypeFromCollectionValue`: the captured `type` group of the
first `typeExpr` match, or `''`. -/
def extractTypeFromCollectionValue (s : String) : String :=
  match findTypeTag s.data with
  | some run => run.asString
  | none => ""

/-- `isUnaryCollection` (the list is copied verbatim from the source,
including its duplicated `'int16array'` entry and missing
`'uint16array'`). -/
def isUnaryCollection (definedType : String) : Bool :=
  jsToLower definedType ∈ ["[]", "int8array", "uint8array", "uint8clampedarray", "int16array",
    "int16array", "int32array", "uint32array", "float32array", "float64array", "set"]

/-- The signature of a registry dispatch
(`getTransformer(name)` followed by the call): matcher name, subject, raw
value, context. -/
abbrev RunT := String → String → String → ContextType → JaxM TransformResult

/-- `transformPrimitives`: rejects the literal raw values
`"primitives"`/`"collection"`, then tries each configured primitive
matcher via the registry (`run`), first success wins; total failure yields
`(null, false)`. -/
def transformPrimitives (run : RunT) (spec : SpecOptions) (subject s : String)
    (context : ContextType) : JaxM TransformResult :=
  let primitives := (spec.opts context).primitives
  if jsToLower s ∈ ["primitives", "collection"] then
    .error (.config ("primitives matcher cannot contain: " ++ s) subject)
  else
    go primitives
where
  /-- `primitives.some(...)` with the result threading of the source:
  stop at the first success, else `(null, false)`. -/
  go : List String → JaxM TransformResult
    | [] => .ok ⟨.null, false⟩
    | v :: rest => do
      let r ← run v subject s context
      if r.succeeded then .ok ⟨r.value, true⟩ else go rest

/-- `transformAssoc`: a single type-name is wrapped into a list; each
listed type must be one of `number|boolean|symbol|string` (else a
configuration error); the first type whose transform succeeds wins; total
failure yields `(null, false)`; a non-string non-array spec is a
configuration error. -/
def transformAssoc (run : RunT) (subject : String) (assocType : AssocTypeSpec)
    (context : ContextType) (assocValue : String) : JaxM TransformResult :=
  let assocTypes := match assocType with
    | .one t => AssocTypeSpec.many [t]
    | x => x
  match assocTypes with
  | .many ts => go ts
  | _ => .error (.config "Invalid associative value type" subject)
where
  go : List String → JaxM TransformResult
    | [] => .ok ⟨.null, false⟩
    | v :: rest =>
      if v ∈ ["number", "boolean", "symbol", "string"] then do
        let r ← run v subject assocValue context
        if r.succeeded then .ok ⟨r.value, true⟩ else go rest
      else
        .error (.config ("Invalid value type for associative collection found: " ++ v) subject)

/-- `transformUnaryCollection`: re-run every element through the primitive
chain independently, keep failures as their raw strings, and always report
overall success. -/
def transformUnaryCollection (run : RunT) (spec : SpecOptions) (subject : String)
    (context : ContextType) (sourceCollection : List String) : JaxM TransformResult := do
  let value ← sourceCollection.mapM (fun item => do
    let itemResult ← transformPrimitives run spec subject item context
    pure (if itemResult.succeeded then itemResult.value else .str item))
  .ok ⟨.arr value, true⟩

/-- `transformAssociativeCollection`: split each entry on the associative
delimiter; exactly two parts are coerced as key and value (a pair whose
coercion fails on either side is silently skipped), any other arity is a
hard parse error; the pair list then becomes a plain object (`object` /
`{}` tags) or a typed collection. -/
def transformAssociativeCollection (run : RunT) (spec : SpecOptions) (subject : String)
    (context : ContextType) (collectionType : String) (sourceCollection : List String) :
    JaxM TransformResult := do
  let transformValue ← go [] sourceCollection
  let result :=
    if jsToLower collectionType ∈ ["object", "\x7b\x7d"] then
      JValue.obj (transformValue.foldl (fun acc p =>
        match p with
        | .arr [k, v] => jSet acc k.asKey v
        | _ => acc) [])
    else
      createTypedCollection (jsToLower collectionType) transformValue
  .ok ⟨result, true⟩
where
  /-- The `R.reduce` over the entry strings: split each on the associative
  delimiter, coerce an exact pair and append it when both sides coerce
  (silently skip the pair otherwise), raise the parse error on any other
  arity. -/
  go (acc : List JValue) : List String → JaxM (List JValue)
    | [] => pure acc
    | collectionPair :: rest => do
      let elements := jsSplit (spec.opts context).assocDelim collectionPair
      match elements with
      | [keyStr, valueStr] => do
        let coercedKeyResult ←
          transformAssoc run subject (spec.opts context).assocKeyType context keyStr
        let coercedValueResult ←
          transformAssoc run subject (spec.opts context).assocValueType context valueStr
        if coercedKeyResult.succeeded && coercedValueResult.succeeded then
          go (acc ++ [.arr [coercedKeyResult.value, coercedValueResult.value]]) rest
        else
          go acc rest
      | _ => .error (.parse ("Malformed map entry: " ++ collectionPair) subject)

/-- `transformCollection`: detect the bracketed literal via the type tag
and the anchored open/close patterns, split the interior on the collection
delimiter and dispatch to the unary or associative handler; non-matching
input is a soft failure `(null, false)`. -/
def transformCollection (run : RunT) (spec : SpecOptions) (subject collectionValue : String)
    (context : ContextType) : JaxM TransformResult := do
  let o := spec.opts context
  let delim := o.collectionDelim
  let collectionType := extractTypeFromCollectionValue collectionValue
  if collectionType ≠ "" then
    let openExpression := jsReplaceFirst o.collectionOpen CollectionTypePlaceHolder
      ("<" ++ collectionType ++ ">")
    let close := o.collectionClose
    let openIsMatch := jsStartsWith collectionValue openExpression
    let closeIsMatch := jsEndsWith collectionValue close
    if openIsMatch && closeIsMatch then
      let capturedOpen := openExpression
      if capturedOpen == "" then
        .error (.parse ("open expression fails match for value '" ++ collectionValue ++ "'")
          subject)
      else
        let capturedClose := close
        if capturedClose == "" then
          .error (.parse ("close expression fails match for value '" ++ collectionValue ++ "'")
            subject)
        else
          let coreValue := extractCoreCollectionValue capturedOpen capturedClose collectionValue
          let arrayElements := jsSplit delim coreValue
          if isUnaryCollection collectionType then
            transformUnaryCollection run spec subject context arrayElements
          else
            transformAssociativeCollection run spec subject context collectionType arrayElements
    else
      .ok ⟨.null, false⟩
  else
    .ok ⟨.null, false⟩

/-- The transformer registry (`makeTransformers` / `getTransformer`) tied
into a fuel-indexed dispatch: the seven registered matcher names route to
their transforms, any other name is the internal error `getTransformer`
raises.  The chain re-enters itself (primitives and collections re-dispatch
through the registry), so each re-entry consumes one unit of fuel. -/
def runTransformer (spec : SpecOptions) : Nat → RunT
  | 0, _, _, _, _ => .error .fuelExhausted
  | fuel + 1, name, subject, s, context =>
    match name with
    | "number" => .ok (transformNumber subject s)
    | "boolean" => .ok (transformBoolean subject s)
    | "primitives" => transformPrimitives (runTransformer spec fuel) spec subject s context
    | "collection" => transformCollection (runTransformer spec fuel) spec subject s context
    | "date" => .ok (transformDate spec subject s context)
    | "symbol" => .ok (transformSymbol spec subject s context)
    | "string" => transformString spec subject s context
    | other => .error (.internal ("Couldn't get transformer for matcher: " ++ other)
        "getTransformer")

/-- `coerceAttributeValue`: iterate the configured matcher keys in order
(`R.keys(matchers).some`), lower-casing each name before registry lookup;
the first success determines the value; if none succeeds the raw value is
kept; a non-object matchers value is an internal error. -/
def coerceAttributeValue (run : RunT) (subject : String) (matchers : MatchersSpec)
    (rawValue : String) (attributeName : String) : JaxM JValue :=
  match matchers with
  | .obj keys => go keys
  | .notObj =>
    .error (.internal ("invalid matchers, for attribute: " ++ attributeName ++
      " / raw value: " ++ rawValue) "coerceAttributeValue")
where
  /-- `keys.some(...)`: the `resultValue` threading of the source — updated
  only on success, `rawValue` if the iteration exhausts. -/
  go : List String → JaxM JValue
    | [] => .ok (.str rawValue)
    | mt :: rest => do
      let result ← run (jsToLower mt) subject rawValue .attributes
      if result.succeeded then .ok result.value else go rest

/- ## The DOM collaborator -/

/-- An XML element node as consumed through xpath-ts: tag name, attributes
in document order, element children in document order, and the `data` of
the direct text/CDATA children in document order (`composeText` reads only
those).  Interleaving of text among element children does not matter to the
converter: `./*` selects the element children and `composeText`
concatenates the text fragments separately. -/
inductive XNode where
  | mk (name : String) (attrs : List (String × String)) (children : List XNode)
      (texts : List String)

/-- `node.nodeName`. -/
def XNode.name : XNode → String
  | .mk n _ _ _ => n

/-- The attribute list (`xpath.select('@*', node)`): (name, value) pairs in
document order. -/
def XNode.attrs : XNode → List (String × String)
  | .mk _ a _ _ => a

/-- The element children (`xpath.select('./*', node)` filtered to
`ELEMENT_NODE`, which the query already guarantees). -/
def XNode.children : XNode → List XNode
  | .mk _ _ c _ => c

/-- The `data` of the direct text/CDATA children, in document order. -/
def XNode.texts : XNode → List String
  | .mk _ _ _ t => t

/-- `node.getAttribute(name) ?? ''`. -/
def XNode.getAttr (n : XNode) (a : String) : String :=
  (n.attrs.lookup a).getD ""

/-- `node.hasChildNodes()`: any child node — element or text/CDATA. -/
def XNode.hasChildNodes (n : XNode) : Bool :=
  !n.children.isEmpty || !n.texts.isEmpty

mutual
/-- Search the proper descendants of `p` (whose subject path is `ps`) for
the first element, in document order, with the wanted tag name and
attribute value — the `.//{elementName}[@{id}="{name}"]` query of
`selectElementNodeById`.  Returns the node found together with its DOM
parent and that parent's subject path (the DOM hands back a node that
carries its `parentNode`; the embedding returns the pair explicitly). -/
def findByIdFrom (elementName attrName idVal : String) (p : XNode) (ps : String) :
    Option (XNode × XNode × String) :=
  match p with
  | .mk _ _ cs _ => findByIdInNodes elementName attrName idVal p ps cs
termination_by structural p

/-- Document-order scan of a sibling list under parent `p`: each node is
checked before its own subtree, and a whole subtree is exhausted before
the next sibling. -/
def findByIdInNodes (elementName attrName idVal : String) (p : XNode) (ps : String) :
    List XNode → Option (XNode × XNode × String)
  | [] => none
  | c :: rest =>
    if c.name == elementName && (c.attrs.lookup attrName == some idVal) then
      some (c, p, ps)
    else
      match findByIdFrom elementName attrName idVal c (ps ++ "/" ++ c.name) with
      | some r => some r
      | none => findByIdInNodes elementName attrName idVal p ps rest
termination_by structural ns => ns
end

/-- `selectElementNodeById(elementName, id, name, rootNode)`: `null` root
finds nothing; otherwise the descendant search above.  A missing `id` in
the parse info reaches the query as the literal attribute name
`"undefined"` (JS template-string coercion). -/
def selectElementNodeById (elementName : String) (id : Option String) (name : String)
    (rootNode : Option (XNode × String)) : Option (XNode × XNode × String) :=
  match rootNode with
  | none => none
  | some (root, rootSubject) => findByIdFrom elementName (id.getD "undefined") name root rootSubject

/-- `composeText`: concatenate the `data` of the direct text/CDATA
children in document order, trimming each fragment iff
`coercion/textNodes/trim` is set. -/
def composeText (spec : SpecOptions) (elementNode : XNode) : String :=
  let doTrim := spec.textTrim
  elementNode.texts.foldl (fun text d => text ++ (if doTrim then jsTrim d else d)) ""

/- ## Parse info (src/lib/types.ts) -/

/-- The `descendants` member of `IElementInfo`.  The source field `by` is a
Lean keyword and is embedded as `byKey`. -/
structure DescendantsInfo where
  byKey : Option String := none
  throwIfCollision : Option Bool := none
  throwIfMissing : Option Bool := none
deriving DecidableEq, Repr

/-- `IElementInfo`: per-tag-name parse directives. -/
structure IElementInfo where
  id : Option String := none
  recurse : Option String := none
  discards : List String := []
  descendants : Option DescendantsInfo := none
deriving DecidableEq, Repr

/-- `IParseInfo`.  The source field `def` is a Lean keyword and is embedded
as `defaultInfo`; `common` is carried for completeness (the converter
implementation never reads it). -/
structure IParseInfo where
  elements : List (String × IElementInfo)
  common : Option IElementInfo := none
  defaultInfo : Option IElementInfo := none
deriving DecidableEq, Repr

/-- `types.EmptyElementInfo` (referenced by the converter; its definition
site is not under src — the record with nothing set). -/
def EmptyElementInfo : IElementInfo := {}

/-- `getElementInfo`: `parseInfo.elements.get(name) ?? parseInfo.def ??
EmptyElementInfo`. -/
def getElementInfo (elementName : String) (parseInfo : IParseInfo) : IElementInfo :=
  ((parseInfo.elements.lookup elementName).or parseInfo.defaultInfo).getD EmptyElementInfo

/-- The tag name under which `buildChildren` looks up the element info: it
reads `element[elementLabel]` back out of the built object.  A string
value is the Map key; any non-string value (or an absent key) misses the
string-keyed Map and falls through to `def ?? EmptyElementInfo`. -/
def getElementInfoForValue (v : Option JValue) (parseInfo : IParseInfo) : IElementInfo :=
  match v with
  | some (.str s) => getElementInfo s parseInfo
  | _ => (parseInfo.defaultInfo).getD EmptyElementInfo

/- ## The element builders -/

/-- The recursion signature of `this.buildElement` as the mutually
recursive helpers consume it: node, its DOM parent (with that parent's
subject path), and the previously-seen identifier list. -/
abbrev BuildFn := XNode → Option (XNode × String) → List JValue → JaxM JObj

/-- `buildLocalAttributes`: all attributes of the node, each value routed
through the matcher chain when coercion is active, either as a labelled
list of single-entry objects (when `labels/attributes` is configured
non-empty) or as plain members via `R.fromPairs`. -/
def buildLocalAttributes (run : RunT) (spec : SpecOptions) (subject : String)
    (localNode : XNode) : JaxM JObj := do
  let attributeNodes := localNode.attrs
  let doCoercion := spec.coercionActive
  let matchers := spec.attributeMatchers
  match spec.attributesLabel with
  | some attributesLabel =>
    if attributesLabel ≠ "" then do
      let entries ← attributeNodes.mapM (fun an => do
        let attributeName := an.1
        let attributeSubject := subject ++ "/[@" ++ attributeName ++ "]"
        let attributeValue ←
          if doCoercion then coerceAttributeValue run attributeSubject matchers an.2 attributeName
          else pure (.str an.2)
        pure (JValue.obj [(attributeName, attributeValue)]))
      pure [(attributesLabel, JValue.arr entries)]
    else do
      let pairs ← attributeNodes.mapM (fun an => do
        let attributeName := an.1
        let attributeSubject := subject ++ "/[@" ++ attributeName ++ "]"
        let v ←
          if doCoercion then coerceAttributeValue run attributeSubject matchers an.2 attributeName
          else pure (.str an.2)
        pure (attributeName, v))
      pure (jFromPairs pairs)
  | none => do
    let pairs ← attributeNodes.mapM (fun an => do
      let attributeName := an.1
      let attributeSubject := subject ++ "/[@" ++ attributeName ++ "]"
      let v ←
        if doCoercion then coerceAttributeValue run attributeSubject matchers an.2 attributeName
        else pure (.str an.2)
      pure (attributeName, v))
    pure (jFromPairs pairs)

/-- `doMergeElements` (the merge step of the horizontal reduce): when both
operands carry the descendants key, concatenate the two descendants values
and restore them over the flat merge (which would have kept only `b`'s);
otherwise plain `R.mergeAll`. -/
def doMergeElements (descendantsLabel : String) (a b : JObj) : JObj :=
  cond (jHas a descendantsLabel && jHas b descendantsLabel)
    (let mergedChildren := jvConcat ((jGet a descendantsLabel).getD .null)
      ((jGet b descendantsLabel).getD .null)
     let allMergedWithoutChildrenOfA := jMergeAll a b
     jSet allMergedWithoutChildrenOfA descendantsLabel mergedChildren)
    (jMergeAll a b)

/-- `recurseThroughAttribute`: no-op when the element has no identifier
value; fail on a revisited identifier (circular reference); otherwise
resolve the comma-separated references — multi-way references are built
and reduce-merged left to right before this element is overlaid, a single
reference is built and merged under this element. -/
def recurseThroughAttribute (build : BuildFn) (spec : SpecOptions) (pinfo : IParseInfo)
    (subject : String) (element : JObj) (elementNode : XNode)
    (parentNode : Option (XNode × String)) (previouslySeen : List JValue) : JaxM JObj := do
  let info := getElementInfo elementNode.name pinfo
  let id := info.id
  let recurse := info.recurse.getD ""
  let identifier := (jGetId element id).getD (.str "")
  if jvBeq identifier (.str "") then
    pure element
  else if recurse ≠ "" then do
    let seen ←
      if previouslySeen.any (fun v => jvBeq v identifier) then
        .error (.config ("Circular reference detected, element '" ++ identifier.display ++
          "', has already been encountered.") subject)
      else
        pure (previouslySeen ++ [identifier])
    let nodeName := elementNode.name
    let recurseAttr := elementNode.getAttr recurse
    if recurseAttr ≠ "" then
      let recurseAttributes := jsSplit "," recurseAttr
      if recurseAttributes.length > 1 then do
        let inheritedElements ← recurseAttributes.mapM (fun a =>
          match selectElementNodeById nodeName id a parentNode with
          | some (found, fparent, fparentSubject) => build found (some (fparent, fparentSubject)) seen
          | none => .error (.config ("Could not find element of type: '" ++ nodeName ++
              "', id: '" ++ id.getD "undefined" ++ "'='" ++ a ++ "'") subject))
        let mergedInheritedElements :=
          inheritedElements.foldl (doMergeElements spec.descendantsLabel) []
        pure (jMergeAll mergedInheritedElements element)
      else do
        let inheritedElementName := recurseAttributes.headD ""
        match selectElementNodeById nodeName id inheritedElementName parentNode with
        | none => .error (.config ("Could not find element of type: '" ++ nodeName ++
            "', id: '" ++ id.getD "undefined" ++ "'='" ++ inheritedElementName ++ "'") subject)
        | some (found, fparent, fparentSubject) => do
          let inheritedElement ← build found (some (fparent, fparentSubject)) seen
          pure (jMergeAll inheritedElement element)
    else
      pure element
  else
    pure element

/-- The duplicate scan of `buildChildren` (`R.reduce` over the descendants
accumulating each entry's identifier value): a value equal (`R.equals`) to
one already accumulated — `undefined` included — is an element
collision. -/
def collisionScan (id : Option String) (subject : String) :
    List (Option JValue) → List JValue → JaxM (List (Option JValue))
  | acc, [] => pure acc
  | acc, val :: rest =>
    let key := jvGet val id
    if acc.any (fun a => optJvBeq a key) then
      .error (.solicited ("Element collision found: " ++ val.display) subject)
    else
      collisionScan id subject (acc ++ [key]) rest

/-- `R.indexBy(R.prop(id))`: re-key a descendants list by each entry's
identifier value (JS object-key stringification; later entries overwrite
earlier ones, keeping the first position). -/
def indexByProp (id : Option String) (xs : List JValue) : JObj :=
  xs.foldl (fun acc val =>
    jSet acc ((jvGet val id).getD .null).asKey val) []

/-- `R.groupBy(R.prop(id))`: group a descendants list by identifier value,
keys in first-occurrence order, each group in document order. -/
def groupByProp (id : Option String) (xs : List JValue) : JObj :=
  xs.foldl (fun acc val =>
    let k := ((jvGet val id).getD .null).asKey
    match jGet acc k with
    | some (.arr ys) => jSet acc k (.arr (ys ++ [val]))
    | _ => jSet acc k (.arr [val])) []

/-- `buildChildren`: build each element child, concatenate the new children
BEFORE any descendants already present (from inheritance), apply the
configured `by: index`/`by: group` post-processing (with the
`throwIfMissing` collision scan and missing-key check), and attach the
composed text when non-empty. -/
def buildChildren (build : BuildFn) (spec : SpecOptions) (pinfo : IParseInfo)
    (subject : String) (element : JObj) (elementNode : XNode)
    (previouslySeen : List JValue) : JaxM JObj := do
  let selectionResult := elementNode.children
  let descendantsLabel := spec.descendantsLabel
  let element ←
    if selectionResult.length > 0 then do
      let childObjs ← selectionResult.mapM
        (fun childElement => build childElement (some (elementNode, subject)) previouslySeen)
      let children : List JValue := childObjs.map JValue.obj
      let element :=
        if jHas element descendantsLabel then
          jSet element descendantsLabel
            (jvConcat (.arr children) ((jGet element descendantsLabel).getD .null))
        else
          jSet element descendantsLabel (.arr children)
      let elementInfo := getElementInfoForValue (jGet element spec.elementLabel) pinfo
      let byPath := elementInfo.descendants.bind (fun d => d.byKey)
      let throwIfMissing := (elementInfo.descendants.bind (fun d => d.throwIfMissing)).getD false
      if byPath.isSome then
        let descendants := (jGet element descendantsLabel).getD .null
        if children.all (fun c => match c with
            | .obj o => jHasId o elementInfo.id
            | _ => false) then
          if byPath == some "index" then do
            let _ ←
              if throwIfMissing then
                match descendants with
                | .arr ds => collisionScan elementInfo.id subject [] ds
                | _ => pure []
              else
                pure []
            match descendants with
            | .arr ds => pure (jSet element descendantsLabel (.obj (indexByProp elementInfo.id ds)))
            | _ => pure element
          else if byPath == some "group" then
            match descendants with
            | .arr ds => pure (jSet element descendantsLabel (.obj (groupByProp elementInfo.id ds)))
            | _ => pure element
          else
            pure element
        else if throwIfMissing then
          let missing := (children.find? (fun c => match c with
            | .obj o => !jHasId o elementInfo.id
            | _ => true)).getD (.obj [])
          .error (.solicited ("Element is missing key attribute \"" ++
            elementInfo.id.getD "undefined" ++ "\": (" ++ missing.display ++ ")") subject)
        else
          pure element
      else
        pure element
    else
      pure element
  let elementText := composeText spec elementNode
  if elementText ≠ "" then
    pure (jSet element spec.textLabel (.str elementText))
  else
    pure element

/-- `composeElementPath(elementNode)`: the subject path of the node being
built — its parent's subject (`'/'` for a parentless node, `''` at the
document root) extended with the node's own name. -/
def composeSubject (parentCtx : Option (XNode × String)) (n : XNode) : String :=
  (match parentCtx with
    | some (_, parentSubject) => parentSubject
    | none => "/") ++ "/" ++ n.name

/-- `buildElement`: local attributes, element-name key, inheritance
resolution (when a recurse attribute is configured for this tag),
discards filtering, then children/text — with the recursion depth bounded
by fuel (the circular-reference check makes the source terminate; the
fuel only bounds the embedding's recursion). -/
def buildElement (spec : SpecOptions) (pinfo : IParseInfo) :
    Nat → XNode → Option (XNode × String) → List JValue → JaxM JObj
  | 0, _, _, _ => .error .fuelExhausted
  | fuel + 1, elementNode, parentCtx, previouslySeen => do
    let subject := composeSubject parentCtx elementNode
    let element ← buildLocalAttributes (runTransformer spec fuel) spec subject elementNode
    let element := jSet element spec.elementLabel (.str elementNode.name)
    let info := getElementInfo elementNode.name pinfo
    let recurse := info.recurse.getD ""
    let discards := info.discards
    let element ←
      if recurse ≠ "" then
        recurseThroughAttribute (buildElement spec pinfo fuel) spec pinfo subject element
          elementNode parentCtx previouslySeen
      else
        pure element
    let element := discards.foldl (fun acc a => jErase acc a) element
    let element ←
      if elementNode.hasChildNodes then
        buildChildren (buildElement spec pinfo fuel) spec pinfo subject element elementNode
          previouslySeen
      else
        pure element
    pure element
termination_by structural fuel => fuel

/-- Modelled from the spec: the no-inheritance element pipeline of §8 —
"build(element) == buildLocalAttributes(element), extended with the
element-name key and the descendants/text keys when applicable" — local attributes, the element-name key, discards
and children/text, with no inheritance-merge logic invoked.  Children are
still built by the full `buildElement`; only this element's own resolution
is absent.  `buildElement` is compared against this definition in the C6
theorem. -/
def buildNoMerge (spec : SpecOptions) (pinfo : IParseInfo) :
    Nat → XNode → Option (XNode × String) → List JValue → JaxM JObj
  | 0, _, _, _ => .error .fuelExhausted
  | fuel + 1, elementNode, parentCtx, previouslySeen => do
    let subject := composeSubject parentCtx elementNode
    let element ← buildLocalAttributes (runTransformer spec fuel) spec subject elementNode
    let element := jSet element spec.elementLabel (.str elementNode.name)
    let info := getElementInfo elementNode.name pinfo
    let discards := info.discards
    let element := discards.foldl (fun acc a => jErase acc a) element
    let element ←
      if elementNode.hasChildNodes then
        buildChildren (buildElement spec pinfo fuel) spec pinfo subject element elementNode
          previouslySeen
      else
        pure element
    pure element

/- ## Concrete spec instances and document families -/

/-- Matcher options matching the built-in defaults; used as the resolved
options both for a coercion-off spec (where they are never consulted) and
for the default spec. -/
def defaultMatcherOptions : MatcherOptions where
  primitives := ["number", "boolean"]
  dateIsValid := fun _ => false
  symbolMarker := "$"
  symbolGlobal := true
  stringAcceptable := true
  collectionDelim := ","
  collectionOpen := "!<type>["
  collectionClose := "]"
  assocDelim := "="
  assocKeyType := .one "string"
  assocValueType := .one "string"

/-- A spec with coercion inactive: attribute values are copied verbatim.
Used by the inheritance-level document families, whose claims do not
involve coercion. -/
def plainSpec : SpecOptions where
  elementLabel := "_"
  attributesLabel := none
  descendantsLabel := "_children"
  textLabel := "_text"
  coercionActive := false
  attributeMatchers := .obj []
  attributesOpts := defaultMatcherOptions
  textNodesOpts := defaultMatcherOptions
  textTrim := true

/-- Modelled from the spec: the resolved default configuration (specs.ts,
which holds `Specs.default`/`Specs.fallBack`, is not under src).  Output
labels and coercion options follow §4.1/§6 of the spec and the source
comment "the default open pattern is: `!<[]>[`, and close pattern is:
`]`"; the date oracle is arbitrary (no property below exercises dates). -/
def defaultSpecOptions : SpecOptions where
  elementLabel := "_"
  attributesLabel := none
  descendantsLabel := "_children"
  textLabel := "_text"
  coercionActive := true
  attributeMatchers := .obj ["primitives", "collection", "date", "symbol", "string"]
  attributesOpts := defaultMatcherOptions
  textNodesOpts := defaultMatcherOptions
  textTrim := true

/-- The parse info of the source test suite for `Command` elements,
without descendant post-processing. -/
def commandParseInfo : IParseInfo where
  elements := [("Command",
    { id := some "name", recurse := some "inherits",
      discards := ["inherits", "abstract"] })]

/-- `<Command name="leaf" describe="..." inherits="leaf"/>` — the
self-inheritance document of the source test suite. -/
def selfLeafNode : XNode :=
  .mk "Command" [("name", "leaf"), ("describe", "this is a leaf command"),
    ("inherits", "leaf")] [] []

/-- The `Commands` parent holding `selfLeafNode`. -/
def selfCommandsNode : XNode := .mk "Commands" [] [selfLeafNode] []

/-- `<Command name="alpha"/>` of the two-cycle document: alpha inherits
beta. -/
def cycleAlphaNode : XNode :=
  .mk "Command" [("name", "alpha"), ("inherits", "beta")] [] []

/-- `<Command name="beta"/>` of the two-cycle document: beta inherits
alpha. -/
def cycleBetaNode : XNode :=
  .mk "Command" [("name", "beta"), ("inherits", "alpha")] [] []

/-- The `Commands` parent of the two-cycle document. -/
def cycleCommandsNode : XNode := .mk "Commands" [] [cycleAlphaNode, cycleBetaNode] []


/-- The result of a successful build step read at a key: `none` on a
raised error. -/
def jGetE (m : JaxM JObj) (k : String) : Option JValue :=
  match m with
  | .ok o => jGet o k
  | .error _ => none

/-- Did the computation return normally (no raised error)? -/
def jaxIsOk {α : Type} (m : JaxM α) : Bool :=
  match m with
  | .ok _ => true
  | .error _ => false

/-- The merged visible value of a key after the left-to-right reduce over
built base elements: the value from the latest-listed base that defines
the key (the spec's tie-break rule, stated from its words). -/
def lastDefinedValue (k : String) (elems : List JObj) : Option JValue :=
  elems.foldl (fun acc el => (jGet el k).or acc) none


/-- `<Command name="alpha-command" filter="..."/>` — first base of the
multi-inheritance family (attribute value arbitrary). -/
def alphaCommandNode (va : String) : XNode :=
  .mk "Command" [("name", "alpha-command"), ("filter", va)] [] []

/-- `<Command name="beta-command" filter="..."/>` — second base of the
multi-inheritance family. -/
def betaCommandNode (vb : String) : XNode :=
  .mk "Command" [("name", "beta-command"), ("filter", vb)] [] []

/-- `<Command name="leaf" inherits="alpha-command,beta-command"/>` — leaf
with no local `filter`. -/
def multiLeafNode : XNode :=
  .mk "Command" [("name", "leaf"), ("inherits", "alpha-command,beta-command")] [] []

/-- The leaf with a local `filter` value of its own. -/
def multiLeafLocalNode (vl : String) : XNode :=
  .mk "Command" [("name", "leaf"), ("filter", vl),
    ("inherits", "alpha-command,beta-command")] [] []

/-- The `Commands` parent of the multi-inheritance family. -/
def multiCommandsNode (va vb : String) (leaf : XNode) : XNode :=
  .mk "Commands" [] [alphaCommandNode va, betaCommandNode vb, leaf] []


/-- `<Arg name="bx"/>` — the child of the base command in the
children-order family. -/
def inhBaseChildNode : XNode := .mk "Arg" [("name", "bx")] [] []

/-- `<Command name="base-command" abstract="true"><Arg name="bx"/></Command>`. -/
def inhBaseNode : XNode :=
  .mk "Command" [("name", "base-command"), ("abstract", "true")] [inhBaseChildNode] []

/-- `<Arg name="ly"/>` — the leaf's own child. -/
def inhLeafChildNode : XNode := .mk "Arg" [("name", "ly")] [] []

/-- `<Command name="leaf" inherits="base-command"><Arg name="ly"/></Command>`. -/
def inhLeafNode : XNode :=
  .mk "Command" [("name", "leaf"), ("inherits", "base-command")] [inhLeafChildNode] []

/-- The `Commands` parent of the children-order family. -/
def inhCommandsNode : XNode := .mk "Commands" [] [inhBaseNode, inhLeafNode] []


/-- A dispatch outcome that neither raised nor succeeded: the transformer
returned softly with `succeeded = false` ("does not apply, try the
next"). -/
def softFails (r : JaxM TransformResult) : Bool :=
  match r with
  | .ok t => !t.succeeded
  | .error _ => false


/-- The default options with string coercion disallowed
(`string: false`) — the configuration that turns the string matcher into a
hard failure. -/
def strictSpecOptions : SpecOptions :=
  { defaultSpecOptions with
    attributesOpts := { defaultMatcherOptions with stringAcceptable := false } }


/-- Erase the `descendants.throwIfCollision` flag of one element info
(everything else untouched).  Two element infos are "equal up to
`throwIfCollision`" exactly when their erasures are equal. -/
def scrubElementInfo (i : IElementInfo) : IElementInfo :=
  { i with descendants := i.descendants.map (fun d => { d with throwIfCollision := none }) }

/-- Erase `descendants.throwIfCollision` throughout a parse info. -/
def scrubParseInfo (p : IParseInfo) : IParseInfo where
  elements := p.elements.map (fun e => (e.1, scrubElementInfo e.2))
  common := p.common.map scrubElementInfo
  defaultInfo := p.defaultInfo.map scrubElementInfo


/-- The command parse info with descendant re-indexing and
`throwIfCollision := true` (a flag the implementation never reads). -/
def collisionTrueParseInfo : IParseInfo where
  elements := [("Command",
    { id := some "name", recurse := some "inherits",
      discards := ["inherits", "abstract"],
      descendants :=
        some { byKey := some "index", throwIfCollision := some true,
               throwIfMissing := some false } })]

/-- The same parse info with `throwIfCollision := false`. -/
def collisionFalseParseInfo : IParseInfo where
  elements := [("Command",
    { id := some "name", recurse := some "inherits",
      discards := ["inherits", "abstract"],
      descendants :=
        some { byKey := some "index", throwIfCollision := some false,
               throwIfMissing := some false } })]


/-- A parse info declaring `by: index` with `throwIfMissing := true`. -/
def idxThrowParseInfo : IParseInfo where
  elements := [("Command",
    { id := some "name",
      descendants := some { byKey := some "index", throwIfMissing := some true } })]

/-- A recursion callback for `buildChildren` witnesses: each child builds
to its attribute mapping. -/
def attrObjBuilder : BuildFn :=
  fun n _ _ => .ok (n.attrs.map (fun a => (a.1, JValue.str a.2)))

/-- Two children sharing the identifier value `k`. -/
def dupChildrenNode : XNode :=
  .mk "Command" [] [.mk "Arg" [("name", "k")] [] [], .mk "Arg" [("name", "k")] [] []] []

/-- Two children with distinct identifier values. -/
def distinctChildrenNode : XNode :=
  .mk "Command" [] [.mk "Arg" [("name", "k1")] [] [], .mk "Arg" [("name", "k2")] [] []] []

/-- A child with the identifier and one lacking it entirely. -/
def missChildrenNode : XNode :=
  .mk "Command" [] [.mk "Arg" [("name", "k1")] [] [], .mk "Arg" [] [] []] []


/- ## Basic facts about the object operations -/

theorem jaxm_bind_ok {α β : Type} (x : α) (f : α → JaxM β) :
    (Except.ok x >>= f : JaxM β) = f x := rfl

theorem jaxm_bind_error {α β : Type} (e : JaxError) (f : α → JaxM β) :
    (Except.error e >>= f : JaxM β) = .error e := rfl

theorem jaxm_pure {α : Type} (x : α) : (pure x : JaxM α) = .ok x := rfl

theorem jHas_eq_isSome (o : JObj) (k : String) : jHas o k = (jGet o k).isSome := by
  induction o with
  | nil => rfl
  | cons p rest ih =>
    obtain ⟨k0, v0⟩ := p
    by_cases h : k = k0
    · subst h
      simp [jHas, jGet, List.lookup]
    · have h1 : (k0 == k) = false := by simp [Ne.symm h]
      have h2 : (k == k0) = false := by simp [h]
      simp only [jHas, jGet, List.any_cons, List.lookup, h1, h2, Bool.false_or]
      simpa [jHas, jGet] using ih

theorem jGet_map_set_ne (o : JObj) (k k' : String) (v : JValue) (h : k' ≠ k) :
    jGet (o.map (fun p => cond (p.1 == k) (k, v) p)) k' = jGet o k' := by
  induction o with
  | nil => rfl
  | cons p rest ih =>
    obtain ⟨k0, v0⟩ := p
    by_cases hk : k0 = k
    · subst hk
      have h1 : (k' == k0) = false := by simp [h]
      simp only [List.map_cons, beq_self_eq_true, cond_true, jGet, List.lookup, h1]
      simpa [jGet] using ih
    · have h1 : (k0 == k) = false := by simp [hk]
      by_cases hk' : k' = k0
      · subst hk'
        simp [jGet, List.lookup, h1]
      · have h2 : (k' == k0) = false := by simp [hk']
        simp only [List.map_cons, h1, cond_false, jGet, List.lookup, h2]
        simpa [jGet] using ih

theorem jGet_jSet_ne (o : JObj) (k k' : String) (v : JValue) (h : k' ≠ k) :
    jGet (jSet o k v) k' = jGet o k' := by
  unfold jSet
  cases hh : jHas o k with
  | true =>
    simp only [cond_true]
    exact jGet_map_set_ne o k k' v h
  | false =>
    simp only [cond_false]
    induction o with
    | nil =>
      have h1 : (k' == k) = false := by simp [h]
      simp [jGet, List.lookup, h1]
    | cons p rest ih =>
      obtain ⟨k0, v0⟩ := p
      by_cases hk' : k' = k0
      · subst hk'
        simp [jGet, List.lookup]
      · have h2 : (k' == k0) = false := by simp [hk']
        simp only [List.cons_append, jGet, List.lookup, h2]
        exact ih (by simp [jHas] at hh ⊢; exact fun hx => hh.2 hx)

theorem jGet_jSet_self (o : JObj) (k : String) (v : JValue) :
    jGet (jSet o k v) k = some v := by
  unfold jSet
  cases hh : jHas o k with
  | true =>
    simp only [cond_true]
    induction o with
    | nil => simp [jHas] at hh
    | cons p rest ih =>
      obtain ⟨k0, v0⟩ := p
      by_cases hk : k0 = k
      · subst hk
        simp [jGet, List.lookup]
      · have h1 : (k0 == k) = false := by simp [hk]
        have h2 : (k == k0) = false := by simp [Ne.symm hk]
        simp only [jHas, List.any_cons, h1, Bool.false_or] at hh
        simp only [List.map_cons, h1, cond_false]
        simp only [jGet, List.lookup, h2]
        exact ih hh
  | false =>
    simp only [cond_false]
    induction o with
    | nil => simp [jGet, List.lookup]
    | cons p rest ih =>
      obtain ⟨k0, v0⟩ := p
      simp only [jHas, List.any_cons, Bool.or_eq_false_iff] at hh
      have h2 : (k == k0) = false := by
        have h3 := hh.1
        simp only [beq_eq_false_iff_ne, ne_eq] at h3 ⊢
        exact fun hx => h3 hx.symm
      simp only [List.cons_append, jGet, List.lookup, h2]
      exact ih (by simpa [jHas] using hh.2)

theorem jHas_iff_mem (o : JObj) (k : String) : jHas o k = true ↔ k ∈ jKeys o := by
  simp [jHas, jKeys, List.any_eq_true, List.mem_map, beq_iff_eq]

theorem jGet_eq_none_of_not_has (o : JObj) (k : String) (h : jHas o k = false) :
    jGet o k = none := by
  have := jHas_eq_isSome o k
  rw [h] at this
  exact Option.not_isSome_iff_eq_none.mp (by simp [← this])

theorem jGet_jMergeAll_not_b (a b : JObj) (k : String) (h : jHas b k = false) :
    jGet (jMergeAll a b) k = jGet a k := by
  induction b generalizing a with
  | nil => rfl
  | cons p rest ih =>
    obtain ⟨k0, v0⟩ := p
    simp only [jHas, List.any_cons, Bool.or_eq_false_iff] at h
    have hk : k ≠ k0 := by
      intro hx
      have := h.1
      simp [hx] at this
    show jGet (jMergeAll (jSet a k0 v0) rest) k = jGet a k
    rw [ih (jSet a k0 v0) (by simpa [jHas] using h.2)]
    exact jGet_jSet_ne a k0 k v0 hk

theorem jGet_jMergeAll_nodup (a b : JObj) (k : String) (h : (jKeys b).Nodup) :
    jGet (jMergeAll a b) k = (jGet b k).or (jGet a k) := by
  induction b generalizing a with
  | nil => simp [jMergeAll, jGet, List.lookup, Option.none_or]
  | cons p rest ih =>
    obtain ⟨k0, v0⟩ := p
    simp only [jKeys, List.map_cons, List.nodup_cons] at h
    by_cases hk : k = k0
    · subst hk
      show jGet (jMergeAll (jSet a k v0) rest) k = _
      rw [ih (jSet a k v0) h.2]
      have hrest : jGet rest k = none := by
        apply jGet_eq_none_of_not_has
        rw [← Bool.not_eq_true]
        intro hx
        exact h.1 ((jHas_iff_mem rest k).mp hx)
      rw [hrest, jGet_jSet_self]
      simp [jGet, List.lookup, Option.none_or]
    · have h2 : (k == k0) = false := by simp [hk]
      show jGet (jMergeAll (jSet a k0 v0) rest) k = _
      rw [ih (jSet a k0 v0) h.2, jGet_jSet_ne a k0 k v0 hk]
      simp [jGet, List.lookup, h2]

theorem lastDefinedValue_shift (k : String) (es : List JObj) :
    ∀ o : Option JValue,
      es.foldl (fun acc el => (jGet el k).or acc) o =
        (lastDefinedValue k es).or o := by
  induction es with
  | nil => intro o; simp [lastDefinedValue, Option.none_or]
  | cons e rest ih =>
    intro o
    show rest.foldl _ ((jGet e k).or o) = _
    rw [ih ((jGet e k).or o)]
    have h2 : lastDefinedValue k (e :: rest) = (lastDefinedValue k rest).or (jGet e k) := by
      show rest.foldl _ ((jGet e k).or none) = _
      rw [ih ((jGet e k).or none)]
      simp
    rw [h2, Option.or_assoc]

theorem jGet_doMergeElements_ne (dl : String) (a b : JObj) (k : String)
    (hb : (jKeys b).Nodup) (hk : k ≠ dl) :
    jGet (doMergeElements dl a b) k = (jGet b k).or (jGet a k) := by
  unfold doMergeElements
  cases h : (jHas a dl && jHas b dl) with
  | true =>
    simp only [cond_true]
    rw [jGet_jSet_ne _ dl k _ hk]
    exact jGet_jMergeAll_nodup a b k hb
  | false =>
    simp only [cond_false]
    exact jGet_jMergeAll_nodup a b k hb

theorem jGet_foldl_doMergeElements (dl k : String) (hk : k ≠ dl) (elems : List JObj)
    (hnd : ∀ el ∈ elems, (jKeys el).Nodup) :
    ∀ acc : JObj,
      jGet (elems.foldl (doMergeElements dl) acc) k =
        (lastDefinedValue k elems).or (jGet acc k) := by
  induction elems with
  | nil => intro acc; simp [lastDefinedValue, Option.none_or]
  | cons e rest ih =>
    intro acc
    show jGet (rest.foldl (doMergeElements dl) (doMergeElements dl acc e)) k = _
    rw [ih (fun el hel => hnd el (List.mem_cons_of_mem e hel)) (doMergeElements dl acc e)]
    rw [jGet_doMergeElements_ne dl acc e k (hnd e (List.mem_cons_self e rest)) hk]
    have h2 : lastDefinedValue k (e :: rest) = (lastDefinedValue k rest).or (jGet e k) := by
      show rest.foldl _ ((jGet e k).or none) = _
      rw [lastDefinedValue_shift k rest ((jGet e k).or none)]
      simp
    rw [h2, Option.or_assoc]

/- ## Claim theorems -/

/-- C1: whenever the inheritance-resolution path revisits an already-seen
identifier, `buildElement` raises a configuration error ("circular
reference") instead of recursing further or returning a result: (1) for
every element whose non-empty identifier is already in the previously-seen
list and whose tag has a recurse attribute configured, the resolver raises
the `JaxConfigError` naming the identifier — whatever recursion callback,
spec, parse info or document surrounds it; (2) the self-inheritance
document (`inherits="leaf"` on element leaf) fails with that error at
every sufficient fuel; (3) the two-element cycle (alpha inherits beta,
beta inherits alpha) likewise. -/
theorem claim_C1_circular_reference :
    (∀ (build : BuildFn) (spec : SpecOptions) (pinfo : IParseInfo) (subject : String)
      (element : JObj) (elementNode : XNode) (parentNode : Option (XNode × String))
      (previouslySeen : List JValue),
      (getElementInfo elementNode.name pinfo).recurse.getD "" ≠ "" →
      jvBeq ((jGetId element (getElementInfo elementNode.name pinfo).id).getD (.str ""))
        (.str "") = false →
      previouslySeen.any (fun v =>
        jvBeq v ((jGetId element (getElementInfo elementNode.name pinfo).id).getD (.str ""))) =
        true →
      recurseThroughAttribute build spec pinfo subject element elementNode parentNode
        previouslySeen =
        .error (.config ("Circular reference detected, element '" ++
          ((jGetId element (getElementInfo elementNode.name pinfo).id).getD
            (.str "")).display ++ "', has already been encountered.") subject)) ∧
    (∀ fuel : Nat, buildElement plainSpec commandParseInfo (fuel + 2) selfLeafNode
      (some (selfCommandsNode, "/Application/Cli/Commands")) [] =
      .error (.config
        "Circular reference detected, element 'leaf', has already been encountered."
        "/Application/Cli/Commands/Command")) ∧
    (∀ fuel : Nat, buildElement plainSpec commandParseInfo (fuel + 3) cycleAlphaNode
      (some (cycleCommandsNode, "/Application/Cli/Commands")) [] =
      .error (.config
        "Circular reference detected, element 'alpha', has already been encountered."
        "/Application/Cli/Commands/Command")) := by
  refine ⟨?_, fun _ => rfl, fun _ => rfl⟩
  intro build spec pinfo subject element elementNode parentNode previouslySeen h1 h2 h3
  unfold recurseThroughAttribute
  simp only [h2, Bool.false_eq_true, if_false, h1, ite_true, if_true, h3, ite_false,
    jaxm_bind_error, ne_eq, not_false_eq_true]

/-- C3: `doMergeElements` never drops descendants: when both operands
carry the descendants key with (array) lists, the merged element holds
their concatenation; when only one side carries the key, its list survives
the merge unchanged. -/
theorem claim_C3_descendants_never_lost :
    (∀ (dl : String) (a b : JObj) (xs ys : List JValue),
      jGet a dl = some (.arr xs) → jGet b dl = some (.arr ys) →
      jGet (doMergeElements dl a b) dl = some (.arr (xs ++ ys))) ∧
    (∀ (dl : String) (a b : JObj), jHas b dl = false →
      jGet (doMergeElements dl a b) dl = jGet a dl) ∧
    (∀ (dl : String) (a b : JObj), (jKeys b).Nodup → jHas a dl = false →
      jGet (doMergeElements dl a b) dl = jGet b dl) := by
  refine ⟨?_, ?_, ?_⟩
  · intro dl a b xs ys ha hb
    have hA : jHas a dl = true := by rw [jHas_eq_isSome, ha]; rfl
    have hB : jHas b dl = true := by rw [jHas_eq_isSome, hb]; rfl
    unfold doMergeElements
    simp only [hA, hB, Bool.and_self, cond_true, ha, hb, Option.getD_some]
    show jGet (jSet (jMergeAll a b) dl (jvConcat (.arr xs) (.arr ys))) dl = _
    rw [jGet_jSet_self]
    rfl
  · intro dl a b hb
    unfold doMergeElements
    simp only [hb, Bool.and_false, cond_false]
    exact jGet_jMergeAll_not_b a b dl hb
  · intro dl a b hnd ha
    unfold doMergeElements
    simp only [ha, Bool.false_and, cond_false]
    rw [jGet_jMergeAll_nodup a b dl hnd, jGet_eq_none_of_not_has a dl ha, Option.or_none]

/-- Witness for C1: the resolver raises the circular-reference error on a
concrete element whose identifier `leaf` is already in the seen list, and
the self-inheritance document fails at fuel 2. -/
theorem claim_C1_circular_reference_witness :
    recurseThroughAttribute (fun _ _ _ => .error .fuelExhausted) plainSpec commandParseInfo
      "/subj" [("name", .str "leaf")] selfLeafNode none [.str "leaf"] =
      .error (.config
        "Circular reference detected, element 'leaf', has already been encountered."
        "/subj") ∧
    buildElement plainSpec commandParseInfo 2 selfLeafNode
      (some (selfCommandsNode, "/Application/Cli/Commands")) [] =
      .error (.config
        "Circular reference detected, element 'leaf', has already been encountered."
        "/Application/Cli/Commands/Command") ∧
    buildElement plainSpec commandParseInfo 3 cycleAlphaNode
      (some (cycleCommandsNode, "/Application/Cli/Commands")) [] =
      .error (.config
        "Circular reference detected, element 'alpha', has already been encountered."
        "/Application/Cli/Commands/Command") :=
  ⟨claim_C1_circular_reference.1 (fun _ _ _ => .error .fuelExhausted) plainSpec
      commandParseInfo "/subj" [("name", .str "leaf")] selfLeafNode none [.str "leaf"]
      (by decide) (by rfl) (by rfl),
    claim_C1_circular_reference.2.1 0,
    claim_C1_circular_reference.2.2 0⟩

/-- Witness for C3: concrete merges — both operands with descendants
lists concatenate; one-sided descendants survive unchanged. -/
theorem claim_C3_descendants_never_lost_witness :
    jGet (doMergeElements "_children" [("_children", .arr [.str "x"])]
      [("_children", .arr [.str "y"])]) "_children" = some (.arr [.str "x", .str "y"]) ∧
    jGet (doMergeElements "_children" [("_children", .arr [.str "x"])]
      [("other", .str "o")]) "_children" = some (.arr [.str "x"]) ∧
    jGet (doMergeElements "_children" [("other", .str "o")]
      [("_children", .arr [.str "y"])]) "_children" = some (.arr [.str "y"]) :=
  ⟨claim_C3_descendants_never_lost.1 "_children" _ _ [.str "x"] [.str "y"] rfl rfl,
    by rw [claim_C3_descendants_never_lost.2.1 "_children"
      [("_children", .arr [.str "x"])] [("other", .str "o")] (by rfl)]; rfl,
    by rw [claim_C3_descendants_never_lost.2.2 "_children" [("other", .str "o")]
      [("_children", .arr [.str "y"])] (by decide) (by rfl)]; rfl⟩

/-- C2: precedence of multi-way inheritance — (1) after the left-to-right
reduce-merge of the built bases, any non-descendants key holds the value
from the latest-listed base that defines it; (2) overlaying the current
element keeps every locally defined value (local wins regardless of what
the bases define); (3)–(4) end to end on the spec's concrete scenario
`inherits = "alpha-command,beta-command"` with `filter` values `alpha` /
`beta`: with no local `filter` the built leaf's `filter` is beta's
(latest listed); with a local `filter` it is the local value. -/
theorem claim_C2_inheritance_precedence :
    (∀ (dl k : String) (elems : List JObj), k ≠ dl →
      (∀ el ∈ elems, (jKeys el).Nodup) →
      jGet (elems.foldl (doMergeElements dl) []) k = lastDefinedValue k elems) ∧
    (∀ (inherited element : JObj) (k : String) (v : JValue), (jKeys element).Nodup →
      jGet element k = some v → jGet (jMergeAll inherited element) k = some v) ∧
    (∀ fuel : Nat,
      jGetE (buildElement plainSpec commandParseInfo (fuel + 2) multiLeafNode
        (some (multiCommandsNode "alpha" "beta" multiLeafNode,
          "/Application/Cli/Commands")) []) "filter" = some (.str "beta")) ∧
    (∀ fuel : Nat,
      jGetE (buildElement plainSpec commandParseInfo (fuel + 2) (multiLeafLocalNode "local")
        (some (multiCommandsNode "alpha" "beta" (multiLeafLocalNode "local"),
          "/Application/Cli/Commands")) []) "filter" = some (.str "local")) := by
  refine ⟨?_, ?_, fun _ => rfl, fun _ => rfl⟩
  · intro dl k elems hk hnd
    rw [jGet_foldl_doMergeElements dl k hk elems hnd []]
    simp [jGet, List.lookup]
  · intro inherited element k v hnd hv
    rw [jGet_jMergeAll_nodup inherited element k hnd, hv]
    rfl

/-- Witness for C2: a concrete reduce over two bases where the later base
defines the shared key, a concrete local override, and the family at
fuel 2. -/
theorem claim_C2_inheritance_precedence_witness :
    jGet ([[("filter", JValue.str "alpha")], [("filter", JValue.str "beta")]].foldl
      (doMergeElements "_children") []) "filter" = some (.str "beta") ∧
    jGet (jMergeAll [("filter", .str "beta")] [("filter", .str "local")]) "filter" =
      some (.str "local") ∧
    jGetE (buildElement plainSpec commandParseInfo 2 multiLeafNode
      (some (multiCommandsNode "alpha" "beta" multiLeafNode,
        "/Application/Cli/Commands")) []) "filter" = some (.str "beta") ∧
    jGetE (buildElement plainSpec commandParseInfo 2 (multiLeafLocalNode "local")
      (some (multiCommandsNode "alpha" "beta" (multiLeafLocalNode "local"),
        "/Application/Cli/Commands")) []) "filter" = some (.str "local") :=
  ⟨by rw [claim_C2_inheritance_precedence.1 "_children" "filter" _ (by decide)
      (by intro el hel; fin_cases hel <;> decide)]; rfl,
    claim_C2_inheritance_precedence.2.1 [("filter", .str "beta")] [("filter", .str "local")]
      "filter" (.str "local") (by decide) (by rfl),
    claim_C2_inheritance_precedence.2.2.1 0,
    claim_C2_inheritance_precedence.2.2.2 0⟩

/-- C5: when an element has both directly built children and a descendants
list inherited through the recurse attribute, the final descendants list
is the concatenation with the newly built children FIRST: (1) for any
recursion callback, element and node — if the node has children that build
successfully, the element already holds an (inherited) descendants array,
and no descendant post-processing is declared for the tag, the result's
descendants are `new children ++ inherited`; (2) end to end on the family
(leaf inherits base, each with one child): the leaf's built descendants
are its own child followed by the inherited one. -/
theorem claim_C5_children_before_inherited :
    (∀ (build : BuildFn) (spec : SpecOptions) (pinfo : IParseInfo) (subject : String)
      (element : JObj) (elementNode : XNode) (previouslySeen : List JValue)
      (xs : List JValue) (childObjs : List JObj),
      elementNode.children ≠ [] →
      elementNode.children.mapM
        (fun childElement => build childElement (some (elementNode, subject)) previouslySeen) =
        .ok childObjs →
      jGet element spec.descendantsLabel = some (.arr xs) →
      spec.elementLabel ≠ spec.descendantsLabel →
      spec.textLabel ≠ spec.descendantsLabel →
      (getElementInfoForValue (jGet element spec.elementLabel) pinfo).descendants = none →
      ∃ r, buildChildren build spec pinfo subject element elementNode previouslySeen =
          .ok r ∧
        jGet r spec.descendantsLabel = some (.arr (childObjs.map JValue.obj ++ xs))) ∧
    (∀ fuel : Nat,
      jGetE (buildElement plainSpec commandParseInfo (fuel + 3) inhLeafNode
        (some (inhCommandsNode, "/Application/Cli/Commands")) []) "_children" =
        some (.arr [.obj [("name", .str "ly"), ("_", .str "Arg")],
          .obj [("name", .str "bx"), ("_", .str "Arg")]])) := by
  constructor
  · intro build spec pinfo subject element elementNode previouslySeen xs childObjs hne hmap
      hdesc hlbl htext hinfo
    have hlen : elementNode.children.length > 0 :=
      List.length_pos.mpr hne
    have hhas : jHas element spec.descendantsLabel = true := by
      rw [jHas_eq_isSome, hdesc]; rfl
    unfold buildChildren
    rw [if_pos hlen, hmap]
    simp only [jaxm_bind_ok, hhas, if_true, hdesc, Option.getD_some]
    rw [jGet_jSet_ne element spec.descendantsLabel spec.elementLabel _ hlbl]
    simp only [hinfo, Option.bind, Option.isSome, Bool.false_eq_true, if_false]
    show ∃ r, (pure (jSet element spec.descendantsLabel
        (jvConcat (.arr (childObjs.map JValue.obj)) (.arr xs))) >>=
        (fun element => if composeText spec elementNode ≠ "" then
          pure (jSet element spec.textLabel (.str (composeText spec elementNode)))
        else pure element) : JaxM JObj) = .ok r ∧ _
    rw [jaxm_pure, jaxm_bind_ok]
    by_cases ht : composeText spec elementNode ≠ ""
    · rw [if_pos ht]
      refine ⟨_, rfl, ?_⟩
      rw [jGet_jSet_ne _ spec.textLabel spec.descendantsLabel _ (Ne.symm htext)]
      rw [jGet_jSet_self]
      rfl
    · rw [if_neg ht]
      refine ⟨_, rfl, ?_⟩
      rw [jGet_jSet_self]
      rfl
  · intro fuel
    rfl

/-- Witness for C5: a concrete `buildChildren` run whose element carries an
inherited descendants list — the newly built child lands before it — and
the family at fuel 3. -/
theorem claim_C5_children_before_inherited_witness :
    (∃ r, buildChildren (fun _ _ _ => .ok [("name", .str "c1")]) plainSpec commandParseInfo
        "/s" [("_", .str "Command"), ("_children", .arr [.str "old"])]
        (.mk "Command" [] [.mk "Arg" [] [] []] []) [] = .ok r ∧
      jGet r "_children" =
        some (.arr ([[("name", JValue.str "c1")]].map JValue.obj ++ [.str "old"]))) ∧
    jGetE (buildElement plainSpec commandParseInfo 3 inhLeafNode
      (some (inhCommandsNode, "/Application/Cli/Commands")) []) "_children" =
      some (.arr [.obj [("name", .str "ly"), ("_", .str "Arg")],
        .obj [("name", .str "bx"), ("_", .str "Arg")]]) :=
  ⟨claim_C5_children_before_inherited.1 (fun _ _ _ => .ok [("name", .str "c1")]) plainSpec
      commandParseInfo "/s" [("_", .str "Command"), ("_children", .arr [.str "old"])]
      (.mk "Command" [] [.mk "Arg" [] [] []] []) [] [.str "old"] [[("name", .str "c1")]]
      (List.cons_ne_nil _ _) rfl rfl (by decide) (by decide) rfl,
    claim_C5_children_before_inherited.2 0⟩

theorem recurseThroughAttribute_noop (build : BuildFn) (spec : SpecOptions)
    (pinfo : IParseInfo) (subject : String) (element : JObj) (elementNode : XNode)
    (parentCtx : Option (XNode × String)) (previouslySeen : List JValue)
    (h : jvBeq ((jGetId element (getElementInfo elementNode.name pinfo).id).getD (.str ""))
        (.str "") = true ∨
      (getElementInfo elementNode.name pinfo).recurse.getD "" = "" ∨
      (previouslySeen.any (fun v => jvBeq v ((jGetId element
          (getElementInfo elementNode.name pinfo).id).getD (.str ""))) = false ∧
        elementNode.getAttr ((getElementInfo elementNode.name pinfo).recurse.getD "") =
          "")) :
    recurseThroughAttribute build spec pinfo subject element elementNode parentCtx
      previouslySeen = .ok element := by
  unfold recurseThroughAttribute
  rcases h with h | h | ⟨hseen, hattr⟩
  · simp only [h, if_true]
    rfl
  · cases hid : jvBeq ((jGetId element (getElementInfo elementNode.name pinfo).id).getD
        (.str "")) (.str "") with
    | true => simp only [hid, if_true]; rfl
    | false =>
      simp only [hid, Bool.false_eq_true, if_false, h, ne_eq, not_true_eq_false]
      rfl
  · cases hid : jvBeq ((jGetId element (getElementInfo elementNode.name pinfo).id).getD
        (.str "")) (.str "") with
    | true => simp only [hid, if_true]; rfl
    | false =>
      by_cases hrec : (getElementInfo elementNode.name pinfo).recurse.getD "" = ""
      · simp only [hid, Bool.false_eq_true, if_false, hrec, ne_eq, not_true_eq_false]
        rfl
      · simp only [hid, Bool.false_eq_true, if_false, ne_eq, hrec, not_false_eq_true,
          if_true, hseen, jaxm_pure, jaxm_bind_ok, hattr, not_true_eq_false]

/-- C6: with no applicable inheritance, the built element is exactly the
no-merge pipeline: (1) the inheritance resolver is a no-op — it returns
the element unchanged — when the element's identifier value is
absent/empty, or no recurse attribute is configured for the tag, or the
(unvisited) element's recurse attribute has no value; (2) when no recurse
attribute is configured for the tag, `buildElement` coincides with
`buildNoMerge`, the spec's no-inheritance pipeline (local attributes +
element-name key + discards + descendants/text), at every fuel; (3) the
same when a recurse attribute is configured but the element's identifier
attribute is absent or empty. -/
theorem claim_C6_no_inheritance_exact :
    (∀ (build : BuildFn) (spec : SpecOptions) (pinfo : IParseInfo) (subject : String)
      (element : JObj) (elementNode : XNode) (parentCtx : Option (XNode × String))
      (previouslySeen : List JValue),
      (jvBeq ((jGetId element (getElementInfo elementNode.name pinfo).id).getD (.str ""))
          (.str "") = true ∨
        (getElementInfo elementNode.name pinfo).recurse.getD "" = "" ∨
        (previouslySeen.any (fun v => jvBeq v ((jGetId element
            (getElementInfo elementNode.name pinfo).id).getD (.str ""))) = false ∧
          elementNode.getAttr ((getElementInfo elementNode.name pinfo).recurse.getD "") =
            "")) →
      recurseThroughAttribute build spec pinfo subject element elementNode parentCtx
        previouslySeen = .ok element) ∧
    (∀ (spec : SpecOptions) (pinfo : IParseInfo) (fuel : Nat) (elementNode : XNode)
      (parentCtx : Option (XNode × String)) (previouslySeen : List JValue),
      (getElementInfo elementNode.name pinfo).recurse.getD "" = "" →
      buildElement spec pinfo fuel elementNode parentCtx previouslySeen =
        buildNoMerge spec pinfo fuel elementNode parentCtx previouslySeen) ∧
    (∀ (spec : SpecOptions) (pinfo : IParseInfo) (fuel : Nat) (elementNode : XNode)
      (parentCtx : Option (XNode × String)) (previouslySeen : List JValue) (e : JObj),
      buildLocalAttributes (runTransformer spec fuel) spec
        (composeSubject parentCtx elementNode) elementNode = .ok e →
      jvBeq ((jGetId (jSet e spec.elementLabel (.str elementNode.name))
          (getElementInfo elementNode.name pinfo).id).getD (.str "")) (.str "") = true →
      buildElement spec pinfo (fuel + 1) elementNode parentCtx previouslySeen =
        buildNoMerge spec pinfo (fuel + 1) elementNode parentCtx previouslySeen) := by
  refine ⟨recurseThroughAttribute_noop, ?_, ?_⟩
  · intro spec pinfo fuel elementNode parentCtx previouslySeen h
    cases fuel with
    | zero => rfl
    | succ n =>
      show (buildElement spec pinfo (n + 1) elementNode parentCtx previouslySeen) = _
      unfold buildElement buildNoMerge
      simp only [h, ne_eq, not_true_eq_false, if_false]
      rfl
  · intro spec pinfo fuel elementNode parentCtx previouslySeen e he hid
    simp only [buildElement, buildNoMerge]
    rw [he]
    simp only [jaxm_bind_ok]
    by_cases hrec : (getElementInfo elementNode.name pinfo).recurse.getD "" = ""
    · simp only [hrec, ne_eq, not_true_eq_false, if_false]
      rfl
    · simp only [ne_eq, hrec, not_false_eq_true, if_true]
      rw [recurseThroughAttribute_noop (buildElement spec pinfo fuel) spec pinfo _ _
        elementNode parentCtx previouslySeen (Or.inl hid)]
      rfl

/-- Witness for C6: a concrete no-op resolver run on an element with no
identifier value; `buildElement = buildNoMerge` on a tag with no recurse
configuration; and on a `Command` whose identifier attribute is absent. -/
theorem claim_C6_no_inheritance_exact_witness :
    recurseThroughAttribute (fun _ _ _ => .error .fuelExhausted) plainSpec commandParseInfo
      "/s" [("describe", .str "d")] selfLeafNode none [] = .ok [("describe", .str "d")] ∧
    buildElement plainSpec commandParseInfo 1 (.mk "Widget" [("a", "1")] [] []) none [] =
      buildNoMerge plainSpec commandParseInfo 1 (.mk "Widget" [("a", "1")] [] []) none [] ∧
    buildElement plainSpec commandParseInfo 1 (.mk "Command" [("describe", "d")] [] [])
        none [] =
      buildNoMerge plainSpec commandParseInfo 1 (.mk "Command" [("describe", "d")] [] [])
        none [] :=
  ⟨claim_C6_no_inheritance_exact.1 (fun _ _ _ => .error .fuelExhausted) plainSpec
      commandParseInfo "/s" [("describe", .str "d")] selfLeafNode none [] (Or.inl (by rfl)),
    claim_C6_no_inheritance_exact.2.1 plainSpec commandParseInfo 1
      (.mk "Widget" [("a", "1")] [] []) none [] (by rfl),
    claim_C6_no_inheritance_exact.2.2 plainSpec commandParseInfo 0
      (.mk "Command" [("describe", "d")] [] []) none [] [("describe", .str "d")]
      (by rfl) (by rfl)⟩

theorem coerce_go_skip (run : RunT) (subject raw : String) (ms₁ rest : List String)
    (h : ∀ m' ∈ ms₁, softFails (run (jsToLower m') subject raw .attributes) = true) :
    coerceAttributeValue.go run subject raw (ms₁ ++ rest) =
      coerceAttributeValue.go run subject raw rest := by
  induction ms₁ with
  | nil => rfl
  | cons m' ms₁ ih =>
    have hm' := h m' (List.mem_cons_self m' ms₁)
    cases hr : run (jsToLower m') subject raw .attributes with
    | error e => rw [hr] at hm'; simp [softFails] at hm'
    | ok t =>
      rw [hr] at hm'
      have ht : t.succeeded = false := by
        simp [softFails] at hm'
        exact hm'
      show (do
        let result ← run (jsToLower m') subject raw .attributes
        if result.succeeded then .ok result.value
        else coerceAttributeValue.go run subject raw (ms₁ ++ rest)) = _
      rw [hr, jaxm_bind_ok, ht]
      simp only [Bool.false_eq_true, if_false]
      exact ih (fun m hm => h m (List.mem_cons_of_mem m' hm))

/-- C4: the attribute-coercion chain — (1) matchers run in configured
order and the first `succeeded = true` result determines the value (any
prefix of soft failures is skipped); (2) if every configured matcher fails
softly, the raw string is kept unmodified; (3) when the configuration sets
string coercion to `false` for a context, the string matcher raises the
hard, caller-visible solicited failure instead of succeeding; (4) a raise
from any matcher reached in the chain propagates to the caller. -/
theorem claim_C4_matcher_chain :
    (∀ (run : RunT) (subject raw attributeName : String) (ms₁ ms₂ : List String)
      (m : String) (v : JValue),
      (∀ m' ∈ ms₁, softFails (run (jsToLower m') subject raw .attributes) = true) →
      run (jsToLower m) subject raw .attributes = .ok ⟨v, true⟩ →
      coerceAttributeValue run subject (.obj (ms₁ ++ m :: ms₂)) raw attributeName =
        .ok v) ∧
    (∀ (run : RunT) (subject raw attributeName : String) (ms : List String),
      (∀ m' ∈ ms, softFails (run (jsToLower m') subject raw .attributes) = true) →
      coerceAttributeValue run subject (.obj ms) raw attributeName = .ok (.str raw)) ∧
    (∀ (spec : SpecOptions) (fuel : Nat) (subject s : String) (context : ContextType),
      (spec.opts context).stringAcceptable = false →
      runTransformer spec (fuel + 1) "string" subject s context =
        .error (.solicited "matching failed, terminated by string matcher." subject)) ∧
    (∀ (run : RunT) (subject raw attributeName : String) (ms₁ ms₂ : List String)
      (m : String) (err : JaxError),
      (∀ m' ∈ ms₁, softFails (run (jsToLower m') subject raw .attributes) = true) →
      run (jsToLower m) subject raw .attributes = .error err →
      coerceAttributeValue run subject (.obj (ms₁ ++ m :: ms₂)) raw attributeName =
        .error err) := by
  refine ⟨?_, ?_, ?_, ?_⟩
  · intro run subject raw attributeName ms₁ ms₂ m v h hm
    show coerceAttributeValue.go run subject raw (ms₁ ++ m :: ms₂) = _
    rw [coerce_go_skip run subject raw ms₁ (m :: ms₂) h]
    show (do
      let result ← run (jsToLower m) subject raw .attributes
      if result.succeeded then .ok result.value
      else coerceAttributeValue.go run subject raw ms₂) = _
    rw [hm, jaxm_bind_ok]
    rfl
  · intro run subject raw attributeName ms h
    show coerceAttributeValue.go run subject raw ms = _
    rw [← List.append_nil ms, coerce_go_skip run subject raw ms [] h]
    rfl
  · intro spec fuel subject s context h
    show transformString spec subject s context = _
    unfold transformString
    rw [h]
    rfl
  · intro run subject raw attributeName ms₁ ms₂ m err h hm
    show coerceAttributeValue.go run subject raw (ms₁ ++ m :: ms₂) = _
    rw [coerce_go_skip run subject raw ms₁ (m :: ms₂) h]
    show (do
      let result ← run (jsToLower m) subject raw .attributes
      if result.succeeded then .ok result.value
      else coerceAttributeValue.go run subject raw ms₂) = _
    rw [hm, jaxm_bind_error]

/-- Witness for C4: under the default configuration, `"42"` skips the
failing boolean matcher and is decided by the number matcher; `"abc"`
falls through every typed matcher and stays the raw string; with
`string: false`, the string matcher raises the solicited failure, and the
chain surfaces it. -/
theorem claim_C4_matcher_chain_witness :
    coerceAttributeValue (runTransformer defaultSpecOptions 5) "/s"
      (.obj ["boolean", "number", "string"]) "42" "a" = .ok (.num 42) ∧
    coerceAttributeValue (runTransformer defaultSpecOptions 5) "/s"
      (.obj ["number", "boolean"]) "abc" "a" = .ok (.str "abc") ∧
    runTransformer strictSpecOptions 5 "string" "/s" "abc" .attributes =
      .error (.solicited "matching failed, terminated by string matcher." "/s") ∧
    coerceAttributeValue (runTransformer strictSpecOptions 5) "/s"
      (.obj ["number", "string"]) "abc" "a" =
      .error (.solicited "matching failed, terminated by string matcher." "/s") :=
  ⟨claim_C4_matcher_chain.1 (runTransformer defaultSpecOptions 5) "/s" "42" "a"
      ["boolean"] ["string"] "number" (.num 42)
      (by intro m' hm'; fin_cases hm' <;> rfl) (by rfl),
    claim_C4_matcher_chain.2.1 (runTransformer defaultSpecOptions 5) "/s" "abc" "a"
      ["number", "boolean"] (by intro m' hm'; fin_cases hm' <;> rfl),
    claim_C4_matcher_chain.2.2.1 strictSpecOptions 4 "/s" "abc" .attributes (by rfl),
    claim_C4_matcher_chain.2.2.2 (runTransformer strictSpecOptions 5) "/s" "abc" "a"
      ["number"] [] "string"
      (.solicited "matching failed, terminated by string matcher." "/s")
      (by intro m' hm'; fin_cases hm' <;> rfl) (by rfl)⟩

theorem jaxm_mapM_ok {α β : Type} (g : α → JaxM β) (h : α → β) (l : List α)
    (hg : ∀ i ∈ l, g i = .ok (h i)) : l.mapM g = .ok (l.map h) := by
  induction l with
  | nil => rfl
  | cons x xs ih =>
    rw [List.mapM_cons, hg x (List.mem_cons_self x xs), jaxm_bind_ok,
      ih (fun i hi => hg i (List.mem_cons_of_mem x hi))]
    rfl

/-- C8: collections — (1) under the default configuration the literal
`"!<[]>[1,2,3,4]"` coerces to the numeric sequence `[1,2,3,4]` with
`succeeded = true`; (2) in general the unary-collection handler re-runs
each interior element through the primitive chain independently, keeps an
element whose primitive coercion fails as its raw string, and always
reports overall success. -/
theorem claim_C8_unary_collection :
    (∀ (fuel : Nat) (subject : String),
      runTransformer defaultSpecOptions (fuel + 2) "collection" subject "!<[]>[1,2,3,4]"
        .attributes = .ok ⟨.arr [.num 1, .num 2, .num 3, .num 4], true⟩) ∧
    (∀ (run : RunT) (spec : SpecOptions) (subject : String) (context : ContextType)
      (items : List String) (f : String → TransformResult),
      (∀ i ∈ items, transformPrimitives run spec subject i context = .ok (f i)) →
      transformUnaryCollection run spec subject context items =
        .ok ⟨.arr (items.map (fun i => if (f i).succeeded then (f i).value else .str i)),
          true⟩) := by
  constructor
  · intro fuel subject
    rfl
  · intro run spec subject context items f hf
    unfold transformUnaryCollection
    rw [jaxm_mapM_ok _ (fun i => if (f i).succeeded then (f i).value else .str i) items
      (fun i hi => by rw [hf i hi]; rfl)]
    rfl

/-- Witness for C8: the default-configuration round trip at fuel 3, and a
concrete unary collection where `"2"` coerces to a number while `"zz"`
fails primitive coercion and stays a raw string — with overall success. -/
theorem claim_C8_unary_collection_witness :
    runTransformer defaultSpecOptions 3 "collection" "/s" "!<[]>[1,2,3,4]" .attributes =
      .ok ⟨.arr [.num 1, .num 2, .num 3, .num 4], true⟩ ∧
    transformUnaryCollection (runTransformer defaultSpecOptions 3) defaultSpecOptions "/s"
      .attributes ["2", "zz"] = .ok ⟨.arr [.num 2, .str "zz"], true⟩ :=
  ⟨claim_C8_unary_collection.1 1 "/s",
    by
      rw [claim_C8_unary_collection.2 (runTransformer defaultSpecOptions 3)
        defaultSpecOptions "/s" .attributes ["2", "zz"]
        (fun i => if i == "2" then ⟨.num 2, true⟩ else ⟨.null, false⟩)
        (by intro i hi; fin_cases hi <;> rfl)]
      rfl⟩

theorem jaxIsOk_exists {α : Type} (m : JaxM α) (h : jaxIsOk m = true) : ∃ x, m = .ok x := by
  cases m with
  | ok x => exact ⟨x, rfl⟩
  | error e => simp [jaxIsOk] at h

theorem assoc_go_ok_all_pairs (run : RunT) (spec : SpecOptions) (subject : String)
    (context : ContextType) (items : List String) :
    ∀ (acc tv : List JValue),
      transformAssociativeCollection.go run spec subject context acc items = .ok tv →
      ∀ seg ∈ items, (jsSplit (spec.opts context).assocDelim seg).length = 2 := by
  induction items with
  | nil =>
    intro acc tv _ seg hseg
    simp at hseg
  | cons p rest ih =>
    intro acc tv hok seg hseg
    rw [transformAssociativeCollection.go] at hok
    rcases hsp : jsSplit (spec.opts context).assocDelim p with _ | ⟨a, _ | ⟨b, _ | ⟨c, more⟩⟩⟩ <;>
      rw [hsp] at hok
    · simp at hok
    · simp at hok
    case cons.cons.cons =>
      simp at hok
    case cons.cons =>
      -- the exact-pair case
      rcases List.mem_cons.mp hseg with hseg2 | hseg2
      · subst hseg2
        rw [hsp]
        rfl
      · have hok2 : (do
            let coercedKeyResult ←
              transformAssoc run subject (spec.opts context).assocKeyType context a
            let coercedValueResult ←
              transformAssoc run subject (spec.opts context).assocValueType context b
            if coercedKeyResult.succeeded && coercedValueResult.succeeded then
              transformAssociativeCollection.go run spec subject context
                (acc ++ [.arr [coercedKeyResult.value, coercedValueResult.value]]) rest
            else
              transformAssociativeCollection.go run spec subject context acc rest :
            JaxM (List JValue)) = .ok tv := hok
        cases hk : transformAssoc run subject (spec.opts context).assocKeyType context a with
        | error e => rw [hk, jaxm_bind_error] at hok2; cases hok2
        | ok rk =>
          rw [hk, jaxm_bind_ok] at hok2
          cases hv : transformAssoc run subject (spec.opts context).assocValueType
              context b with
          | error e => rw [hv, jaxm_bind_error] at hok2; cases hok2
          | ok rv =>
            rw [hv, jaxm_bind_ok] at hok2
            by_cases hcond : (rk.succeeded && rv.succeeded) = true
            · rw [if_pos hcond] at hok2
              exact ih _ tv hok2 seg hseg2
            · rw [if_neg hcond] at hok2
              exact ih _ tv hok2 seg hseg2

theorem assoc_go_first_malformed (run : RunT) (spec : SpecOptions) (subject : String)
    (context : ContextType)
    (hkey : ∀ sv : String, jaxIsOk (transformAssoc run subject
      (spec.opts context).assocKeyType context sv) = true)
    (hval : ∀ sv : String, jaxIsOk (transformAssoc run subject
      (spec.opts context).assocValueType context sv) = true)
    (pre : List String) (seg : String) (post : List String)
    (hpre : ∀ p ∈ pre, (jsSplit (spec.opts context).assocDelim p).length = 2)
    (hseg : (jsSplit (spec.opts context).assocDelim seg).length ≠ 2) :
    ∀ acc : List JValue,
      transformAssociativeCollection.go run spec subject context acc (pre ++ seg :: post) =
        .error (.parse ("Malformed map entry: " ++ seg) subject) := by
  induction pre with
  | nil =>
    intro acc
    rw [List.nil_append, transformAssociativeCollection.go]
    rcases hsp : jsSplit (spec.opts context).assocDelim seg with _ | ⟨a, _ | ⟨b, _ | ⟨c, more⟩⟩⟩ <;>
      try rfl
    exact absurd (by simp [hsp]) hseg
  | cons p pre' ih =>
    intro acc
    have hp2 : (jsSplit (spec.opts context).assocDelim p).length = 2 :=
      hpre p (List.mem_cons_self p pre')
    obtain ⟨a, b, hab⟩ := List.length_eq_two.mp hp2
    rw [List.cons_append, transformAssociativeCollection.go, hab]
    obtain ⟨rk, hk⟩ := jaxIsOk_exists _ (hkey a)
    obtain ⟨rv, hv⟩ := jaxIsOk_exists _ (hval b)
    show (do
      let coercedKeyResult ← transformAssoc run subject (spec.opts context).assocKeyType
        context a
      let coercedValueResult ← transformAssoc run subject (spec.opts context).assocValueType
        context b
      if coercedKeyResult.succeeded && coercedValueResult.succeeded then
        transformAssociativeCollection.go run spec subject context
          (acc ++ [JValue.arr [coercedKeyResult.value, coercedValueResult.value]])
          (pre' ++ seg :: post)
      else
        transformAssociativeCollection.go run spec subject context acc
          (pre' ++ seg :: post) : JaxM (List JValue)) = _
    rw [hk, jaxm_bind_ok, hv, jaxm_bind_ok]
    have hpre' : ∀ q ∈ pre', (jsSplit (spec.opts context).assocDelim q).length = 2 :=
      fun q hq => hpre q (List.mem_cons_of_mem p hq)
    by_cases hcond : (rk.succeeded && rv.succeeded) = true
    · rw [if_pos hcond]
      exact ih hpre' _
    · rw [if_neg hcond]
      exact ih hpre' _

/-- C7: malformed associative entries — (1) whenever the associative
handler returns at all, every interior segment split into exactly two
parts on the configured inner delimiter, and the reported result has
`succeeded = true` (never a soft failure); (2) when the entry coercers
never raise (as with the default `string` key/value types), the first
segment that does not split into exactly two parts raises the hard
`JaxParseError` naming that segment — the entry is never dropped
silently. -/
theorem claim_C7_malformed_assoc_entry :
    (∀ (run : RunT) (spec : SpecOptions) (subject : String) (context : ContextType)
      (collectionType : String) (items : List String) (r : TransformResult),
      transformAssociativeCollection run spec subject context collectionType items = .ok r →
      (∀ seg ∈ items, (jsSplit (spec.opts context).assocDelim seg).length = 2) ∧
        r.succeeded = true) ∧
    (∀ (run : RunT) (spec : SpecOptions) (subject : String) (context : ContextType)
      (collectionType : String) (pre : List String) (seg : String) (post : List String),
      (∀ sv : String, jaxIsOk (transformAssoc run subject
        (spec.opts context).assocKeyType context sv) = true) →
      (∀ sv : String, jaxIsOk (transformAssoc run subject
        (spec.opts context).assocValueType context sv) = true) →
      (∀ p ∈ pre, (jsSplit (spec.opts context).assocDelim p).length = 2) →
      (jsSplit (spec.opts context).assocDelim seg).length ≠ 2 →
      transformAssociativeCollection run spec subject context collectionType
        (pre ++ seg :: post) =
        .error (.parse ("Malformed map entry: " ++ seg) subject)) := by
  constructor
  · intro run spec subject context collectionType items r hok
    simp only [transformAssociativeCollection] at hok
    cases hgo : transformAssociativeCollection.go run spec subject context [] items with
    | error e =>
      rw [hgo, jaxm_bind_error] at hok
      cases hok
    | ok tv =>
      rw [hgo, jaxm_bind_ok] at hok
      refine ⟨assoc_go_ok_all_pairs run spec subject context items [] tv hgo, ?_⟩
      cases hok
      rfl
  · intro run spec subject context collectionType pre seg post hkey hval hpre hseg
    simp only [transformAssociativeCollection]
    rw [assoc_go_first_malformed run spec subject context hkey hval pre seg post hpre hseg []]
    rfl

/-- Witness for C7: under the default configuration (string key/value
types, `=` inner delimiter), `["a=1", "b=2"]` returns with both segments
as pairs and overall success, and `["a=1", "b"]` raises the parse error
naming `b`. -/
theorem claim_C7_malformed_assoc_entry_witness :
    ((∀ seg ∈ ["a=1", "b=2"],
      (jsSplit (defaultSpecOptions.opts .attributes).assocDelim seg).length = 2) ∧
      (true : Bool) = true) ∧
    transformAssociativeCollection (runTransformer defaultSpecOptions 3) defaultSpecOptions
      "/s" .attributes "object" (["a=1"] ++ "b" :: []) =
      .error (.parse ("Malformed map entry: " ++ "b") "/s") :=
  ⟨claim_C7_malformed_assoc_entry.1 (runTransformer defaultSpecOptions 3) defaultSpecOptions
      "/s" .attributes "object" ["a=1", "b=2"]
      ⟨.obj [("a", .str "1"), ("b", .str "2")], true⟩ (by rfl),
    claim_C7_malformed_assoc_entry.2 (runTransformer defaultSpecOptions 3) defaultSpecOptions
      "/s" .attributes "object" ["a=1"] "b" [] (fun sv => rfl) (fun sv => rfl)
      (by intro p hp; fin_cases hp; rfl) (by decide)⟩

theorem scrubElementInfo_id (i : IElementInfo) : (scrubElementInfo i).id = i.id := rfl

theorem scrubElementInfo_recurse (i : IElementInfo) :
    (scrubElementInfo i).recurse = i.recurse := rfl

theorem scrubElementInfo_discards (i : IElementInfo) :
    (scrubElementInfo i).discards = i.discards := rfl

theorem scrubElementInfo_byKey (i : IElementInfo) :
    (scrubElementInfo i).descendants.bind (fun d => d.byKey) =
      i.descendants.bind (fun d => d.byKey) := by
  cases hd : i.descendants <;> simp [scrubElementInfo, hd]

theorem scrubElementInfo_throwIfMissing (i : IElementInfo) :
    (scrubElementInfo i).descendants.bind (fun d => d.throwIfMissing) =
      i.descendants.bind (fun d => d.throwIfMissing) := by
  cases hd : i.descendants <;> simp [scrubElementInfo, hd]

theorem lookup_map_scrub (name : String) (l : List (String × IElementInfo)) :
    List.lookup name (l.map (fun e => (e.1, scrubElementInfo e.2))) =
      (List.lookup name l).map scrubElementInfo := by
  induction l with
  | nil => rfl
  | cons e rest ih =>
    obtain ⟨k, i⟩ := e
    by_cases hk : name = k
    · subst hk
      simp [List.lookup]
    · have hbeq : (name == k) = false := by simp [hk]
      simp [List.lookup, hbeq, ih]

theorem getElementInfo_scrub (name : String) (p : IParseInfo) :
    getElementInfo name (scrubParseInfo p) = scrubElementInfo (getElementInfo name p) := by
  unfold getElementInfo scrubParseInfo
  rw [lookup_map_scrub]
  cases List.lookup name p.elements with
  | some i => rfl
  | none =>
    cases p.defaultInfo with
    | some j => rfl
    | none => rfl

theorem getElementInfoForValue_scrub (v : Option JValue) (p : IParseInfo) :
    getElementInfoForValue v (scrubParseInfo p) =
      scrubElementInfo (getElementInfoForValue v p) := by
  have hdef : (scrubParseInfo p).defaultInfo.getD EmptyElementInfo =
      scrubElementInfo (p.defaultInfo.getD EmptyElementInfo) := by
    show (p.defaultInfo.map scrubElementInfo).getD EmptyElementInfo = _
    cases p.defaultInfo <;> rfl
  unfold getElementInfoForValue
  match v with
  | none => exact hdef
  | some (.str str) => exact getElementInfo_scrub str p
  | some .null => exact hdef
  | some (.num n) => exact hdef
  | some (.bool b) => exact hdef
  | some (.date d) => exact hdef
  | some (.symbol a g) => exact hdef
  | some (.arr xs) => exact hdef
  | some (.obj o) => exact hdef
  | some (.typed t xs) => exact hdef

theorem recurseThroughAttribute_scrub (build : BuildFn) (spec : SpecOptions)
    (p : IParseInfo) (subject : String) (element : JObj) (elementNode : XNode)
    (parentCtx : Option (XNode × String)) (previouslySeen : List JValue) :
    recurseThroughAttribute build spec (scrubParseInfo p) subject element elementNode
      parentCtx previouslySeen =
      recurseThroughAttribute build spec p subject element elementNode parentCtx
        previouslySeen := by
  simp only [recurseThroughAttribute, getElementInfo_scrub, scrubElementInfo_id,
    scrubElementInfo_recurse]

theorem buildChildren_scrub (build : BuildFn) (spec : SpecOptions) (p : IParseInfo)
    (subject : String) (element : JObj) (elementNode : XNode)
    (previouslySeen : List JValue) :
    buildChildren build spec (scrubParseInfo p) subject element elementNode previouslySeen =
      buildChildren build spec p subject element elementNode previouslySeen := by
  simp only [buildChildren, getElementInfoForValue_scrub, scrubElementInfo_id,
    scrubElementInfo_byKey, scrubElementInfo_throwIfMissing]

theorem buildElement_scrub (spec : SpecOptions) (p : IParseInfo) :
    ∀ (fuel : Nat) (elementNode : XNode) (parentCtx : Option (XNode × String))
      (previouslySeen : List JValue),
      buildElement spec (scrubParseInfo p) fuel elementNode parentCtx previouslySeen =
        buildElement spec p fuel elementNode parentCtx previouslySeen := by
  intro fuel
  induction fuel with
  | zero => intro _ _ _; rfl
  | succ n ih =>
    intro elementNode parentCtx previouslySeen
    have hfn : buildElement spec (scrubParseInfo p) n = buildElement spec p n := by
      funext a b c
      exact ih a b c
    simp only [buildElement, getElementInfo_scrub, scrubElementInfo_recurse,
      scrubElementInfo_discards, hfn, recurseThroughAttribute_scrub, buildChildren_scrub]

/-- C10: the declared `descendants.throwIfCollision` flag is never
consulted — for every spec, document, fuel and pair of parse infos that
agree after erasing `throwIfCollision` everywhere (that is, differ at most
in that flag), the two `buildElement` runs return identical results, and
in particular one raises an error exactly when the other does.
Duplicate-key collision behaviour is therefore governed solely by
`throwIfMissing`. -/
theorem claim_C10_throwIfCollision_never_consulted :
    ∀ (spec : SpecOptions) (p q : IParseInfo) (fuel : Nat) (elementNode : XNode)
      (parentCtx : Option (XNode × String)) (previouslySeen : List JValue),
      scrubParseInfo p = scrubParseInfo q →
      buildElement spec p fuel elementNode parentCtx previouslySeen =
        buildElement spec q fuel elementNode parentCtx previouslySeen ∧
      jaxIsOk (buildElement spec p fuel elementNode parentCtx previouslySeen) =
        jaxIsOk (buildElement spec q fuel elementNode parentCtx previouslySeen) := by
  intro spec p q fuel elementNode parentCtx previouslySeen h
  have heq : buildElement spec p fuel elementNode parentCtx previouslySeen =
      buildElement spec q fuel elementNode parentCtx previouslySeen := by
    rw [← buildElement_scrub spec p fuel elementNode parentCtx previouslySeen, h,
      buildElement_scrub spec q fuel elementNode parentCtx previouslySeen]
  exact ⟨heq, by rw [heq]⟩

/-- Witness for C10: flipping `throwIfCollision` between `true` and
`false` over the inheritance family with `by: index` re-keying changes
nothing about the result. -/
theorem claim_C10_throwIfCollision_never_consulted_witness :
    buildElement plainSpec collisionTrueParseInfo 3 inhLeafNode
      (some (inhCommandsNode, "/Application/Cli/Commands")) [] =
      buildElement plainSpec collisionFalseParseInfo 3 inhLeafNode
        (some (inhCommandsNode, "/Application/Cli/Commands")) [] ∧
    jaxIsOk (buildElement plainSpec collisionTrueParseInfo 3 inhLeafNode
      (some (inhCommandsNode, "/Application/Cli/Commands")) []) =
      jaxIsOk (buildElement plainSpec collisionFalseParseInfo 3 inhLeafNode
        (some (inhCommandsNode, "/Application/Cli/Commands")) []) :=
  claim_C10_throwIfCollision_never_consulted plainSpec collisionTrueParseInfo
    collisionFalseParseInfo 3 inhLeafNode
    (some (inhCommandsNode, "/Application/Cli/Commands")) [] (by decide)

theorem collisionScan_first_dup (id : Option String) (subject : String)
    (pre : List JValue) (dup : JValue) (post : List JValue) :
    ∀ acc : List (Option JValue),
      List.Pairwise (fun a b => optJvBeq a b = false)
        (acc ++ pre.map (fun v => jvGet v id)) →
      (acc ++ pre.map (fun v => jvGet v id)).any
        (fun a => optJvBeq a (jvGet dup id)) = true →
      collisionScan id subject acc (pre ++ dup :: post) =
        .error (.solicited ("Element collision found: " ++ dup.display) subject) := by
  induction pre with
  | nil =>
    intro acc hpair hany
    simp only [List.map_nil, List.append_nil] at hany
    rw [List.nil_append, collisionScan, hany]
    simp only [if_true]
  | cons p pre' ih =>
    intro acc hpair hany
    have hfalse : (acc.any (fun a => optJvBeq a (jvGet p id))) = false := by
      rw [List.any_eq_false]
      intro a ha
      have h2 := (List.pairwise_append.mp hpair).2.2 a ha (jvGet p id)
        (by simp)
      simp [h2]
    rw [List.cons_append, collisionScan, hfalse]
    simp only [Bool.false_eq_true, if_false]
    have hrearr : acc ++ (p :: pre').map (fun v => jvGet v id) =
        (acc ++ [jvGet p id]) ++ pre'.map (fun v => jvGet v id) := by
      simp
    rw [hrearr] at hpair hany
    exact ih (acc ++ [jvGet p id]) hpair hany

theorem find_first_sat {α : Type} (p : α → Bool) (pre : List α) (x : α) (post : List α)
    (hpre : ∀ c ∈ pre, p c = false) (hx : p x = true) :
    (pre ++ x :: post).find? p = some x := by
  induction pre with
  | nil => simp [List.find?_cons, hx]
  | cons c pre' ih =>
    rw [List.cons_append, List.find?_cons, hpre c (List.mem_cons_self c pre')]
    exact ih (fun c' hc' => hpre c' (List.mem_cons_of_mem c hc'))

theorem jGet_indexByProp (id : Option String) (xs : List JValue) (k : String) :
    jGet (indexByProp id xs) k =
      xs.reverse.find? (fun v => ((jvGet v id).getD .null).asKey == k) := by
  suffices h : ∀ o : JObj, jGet (xs.foldl (fun acc val =>
      jSet acc ((jvGet val id).getD .null).asKey val) o) k =
      (xs.reverse.find? (fun v => ((jvGet v id).getD .null).asKey == k)).or (jGet o k) by
    unfold indexByProp
    rw [h []]
    simp [jGet, List.lookup]
  induction xs with
  | nil => intro o; simp
  | cons v rest ih =>
    intro o
    show jGet (rest.foldl _ (jSet o ((jvGet v id).getD .null).asKey v)) k = _
    rw [ih (jSet o ((jvGet v id).getD .null).asKey v)]
    rw [List.reverse_cons, List.find?_append]
    cases hk : (((jvGet v id).getD .null).asKey == k) with
    | true =>
      have hkeq : ((jvGet v id).getD .null).asKey = k := by simpa using hk
      rw [← hkeq, jGet_jSet_self]
      simp [List.find?_cons, hk, hkeq, Option.or_assoc]
    | false =>
      have hkne : k ≠ ((jvGet v id).getD .null).asKey := by
        intro hc
        rw [hc] at hk
        simp at hk
      rw [jGet_jSet_ne _ _ _ _ hkne]
      simp [List.find?_cons, hk, Option.or_assoc]

theorem all_map_obj_hasId (f : Option String) (l : List JObj)
    (h : l.all (fun c => jHasId c f) = true) :
    ((l.map JValue.obj).all (fun c => match c with
      | JValue.obj o => jHasId o f
      | _ => false)) = true := by
  induction l with
  | nil => rfl
  | cons c cs ih =>
    simp only [List.map_cons, List.all_cons, Bool.and_eq_true] at h ⊢
    exact ⟨h.1, ih h.2⟩

theorem buildChildren_index_all (build : BuildFn) (spec : SpecOptions) (pinfo : IParseInfo)
    (subject : String) (element : JObj) (elementNode : XNode) (previouslySeen : List JValue)
    (childObjs : List JObj) (info : IElementInfo)
    (hinfo : info = getElementInfoForValue (jGet element spec.elementLabel) pinfo)
    (hne : elementNode.children ≠ [])
    (hmap : elementNode.children.mapM
      (fun c => build c (some (elementNode, subject)) previouslySeen) = .ok childObjs)
    (hnod : jHas element spec.descendantsLabel = false)
    (hlbl : spec.elementLabel ≠ spec.descendantsLabel)
    (hby : info.descendants.bind (fun d => d.byKey) = some "index")
    (hall : childObjs.all (fun c => jHasId c info.id) = true) :
    buildChildren build spec pinfo subject element elementNode previouslySeen =
      (if (info.descendants.bind (fun d => d.throwIfMissing)).getD false = true then
        collisionScan info.id subject [] (childObjs.map JValue.obj) >>= fun _ =>
          (if composeText spec elementNode ≠ "" then
            pure (jSet (jSet (jSet element spec.descendantsLabel
                (.arr (childObjs.map JValue.obj))) spec.descendantsLabel
                (.obj (indexByProp info.id (childObjs.map JValue.obj))))
              spec.textLabel (.str (composeText spec elementNode)))
          else
            pure (jSet (jSet element spec.descendantsLabel
              (.arr (childObjs.map JValue.obj))) spec.descendantsLabel
              (.obj (indexByProp info.id (childObjs.map JValue.obj)))))
      else
        (if composeText spec elementNode ≠ "" then
          pure (jSet (jSet (jSet element spec.descendantsLabel
              (.arr (childObjs.map JValue.obj))) spec.descendantsLabel
              (.obj (indexByProp info.id (childObjs.map JValue.obj))))
            spec.textLabel (.str (composeText spec elementNode)))
        else
          pure (jSet (jSet element spec.descendantsLabel
            (.arr (childObjs.map JValue.obj))) spec.descendantsLabel
            (.obj (indexByProp info.id (childObjs.map JValue.obj)))))) := by
  subst hinfo
  have hlen : elementNode.children.length > 0 := List.length_pos.mpr hne
  have hall2 := all_map_obj_hasId
    (getElementInfoForValue (jGet element spec.elementLabel) pinfo).id childObjs hall
  unfold buildChildren
  rw [if_pos hlen, hmap]
  simp only [jaxm_bind_ok, hnod, Bool.false_eq_true, if_false]
  rw [jGet_jSet_ne element spec.descendantsLabel spec.elementLabel _ hlbl, hby,
    jGet_jSet_self, hall2]
  simp only [Option.isSome_some, if_true]
  rfl

theorem all_map_obj_eq (f : JObj → Bool) (l : List JObj) :
    ((l.map JValue.obj).all (fun c => match c with
      | JValue.obj o => f o
      | _ => false)) = l.all f := by
  induction l with
  | nil => rfl
  | cons c cs ih =>
    simp only [List.map_cons, List.all_cons]
    rw [ih]

theorem buildChildren_index_missing (build : BuildFn) (spec : SpecOptions)
    (pinfo : IParseInfo) (subject : String) (element : JObj) (elementNode : XNode)
    (previouslySeen : List JValue) (childObjs : List JObj) (info : IElementInfo)
    (hinfo : info = getElementInfoForValue (jGet element spec.elementLabel) pinfo)
    (hne : elementNode.children ≠ [])
    (hmap : elementNode.children.mapM
      (fun c => build c (some (elementNode, subject)) previouslySeen) = .ok childObjs)
    (hnod : jHas element spec.descendantsLabel = false)
    (hlbl : spec.elementLabel ≠ spec.descendantsLabel)
    (hby : info.descendants.bind (fun d => d.byKey) = some "index")
    (hallf : childObjs.all (fun c => jHasId c info.id) = false) :
    buildChildren build spec pinfo subject element elementNode previouslySeen =
      (if (info.descendants.bind (fun d => d.throwIfMissing)).getD false = true then
        .error (.solicited ("Element is missing key attribute \"" ++
          info.id.getD "undefined" ++ "\": (" ++
          (((childObjs.map JValue.obj).find? (fun c => match c with
            | JValue.obj o => !jHasId o info.id
            | _ => true)).getD (.obj [])).display ++ ")") subject)
      else
        (if composeText spec elementNode ≠ "" then
          pure (jSet (jSet element spec.descendantsLabel
              (.arr (childObjs.map JValue.obj)))
            spec.textLabel (.str (composeText spec elementNode)))
        else
          pure (jSet element spec.descendantsLabel
            (.arr (childObjs.map JValue.obj))))) := by
  subst hinfo
  have hlen : elementNode.children.length > 0 := List.length_pos.mpr hne
  have hallf2 : ((childObjs.map JValue.obj).all (fun c => match c with
      | JValue.obj o => jHasId o (getElementInfoForValue
          (jGet element spec.elementLabel) pinfo).id
      | _ => false)) = false := by
    rw [all_map_obj_eq (fun o => jHasId o (getElementInfoForValue
      (jGet element spec.elementLabel) pinfo).id) childObjs]
    exact hallf
  unfold buildChildren
  rw [if_pos hlen, hmap]
  simp only [jaxm_bind_ok, hnod, Bool.false_eq_true, if_false]
  rw [jGet_jSet_ne element spec.descendantsLabel spec.elementLabel _ hlbl, hby, hallf2]
  simp only [Option.isSome_some, if_true, Bool.false_eq_true, if_false]
  rfl

/-- C9: descendant post-processing `by: index` — for any element whose
new children build successfully (and carry the merged descendants alone):
(0) re-keying maps each identifier value to the LAST entry carrying it
(later entries silently overwrite earlier ones, in final mapping order);
(1) with `throwIfMissing` set and two entries sharing an identifier value,
the solicited "Element collision" error naming the colliding entry is
raised (so re-keying never happens); (2) with `throwIfMissing` unset,
re-keying proceeds into the `R.indexBy` mapping; (3) when a child lacks
the identifier attribute and `throwIfMissing` is set, the solicited error
naming the first offending child is raised; (4) when a child lacks the
identifier attribute and `throwIfMissing` is unset, re-keying is skipped
entirely and the descendants stay the untouched list. -/
theorem claim_C9_descendants_by_index :
    (∀ (id : Option String) (xs : List JValue) (k : String),
      jGet (indexByProp id xs) k =
        xs.reverse.find? (fun v => ((jvGet v id).getD .null).asKey == k)) ∧
    (∀ (build : BuildFn) (spec : SpecOptions) (pinfo : IParseInfo) (subject : String)
      (element : JObj) (elementNode : XNode) (previouslySeen : List JValue)
      (childObjs : List JObj) (info : IElementInfo),
      info = getElementInfoForValue (jGet element spec.elementLabel) pinfo →
      elementNode.children ≠ [] →
      elementNode.children.mapM
        (fun c => build c (some (elementNode, subject)) previouslySeen) = .ok childObjs →
      jHas element spec.descendantsLabel = false →
      spec.elementLabel ≠ spec.descendantsLabel →
      spec.textLabel ≠ spec.descendantsLabel →
      info.descendants.bind (fun d => d.byKey) = some "index" →
      ((∀ (preC : List JObj) (dupC : JObj) (postC : List JObj),
        childObjs = preC ++ dupC :: postC →
        (info.descendants.bind (fun d => d.throwIfMissing)).getD false = true →
        childObjs.all (fun c => jHasId c info.id) = true →
        List.Pairwise (fun a b => optJvBeq a b = false)
          (preC.map (fun c => jGetId c info.id)) →
        (preC.map (fun c => jGetId c info.id)).any
          (fun a => optJvBeq a (jGetId dupC info.id)) = true →
        buildChildren build spec pinfo subject element elementNode previouslySeen =
          .error (.solicited ("Element collision found: " ++ (JValue.obj dupC).display)
            subject)) ∧
      ((info.descendants.bind (fun d => d.throwIfMissing)).getD false = false →
        childObjs.all (fun c => jHasId c info.id) = true →
        ∃ r, buildChildren build spec pinfo subject element elementNode previouslySeen =
            .ok r ∧
          jGet r spec.descendantsLabel =
            some (.obj (indexByProp info.id (childObjs.map JValue.obj)))) ∧
      (∀ (preC : List JObj) (missC : JObj) (postC : List JObj),
        childObjs = preC ++ missC :: postC →
        (info.descendants.bind (fun d => d.throwIfMissing)).getD false = true →
        (∀ c ∈ preC, jHasId c info.id = true) →
        jHasId missC info.id = false →
        buildChildren build spec pinfo subject element elementNode previouslySeen =
          .error (.solicited ("Element is missing key attribute \"" ++
            info.id.getD "undefined" ++ "\": (" ++ (JValue.obj missC).display ++ ")")
            subject)) ∧
      ((info.descendants.bind (fun d => d.throwIfMissing)).getD false = false →
        (∃ c ∈ childObjs, jHasId c info.id = false) →
        ∃ r, buildChildren build spec pinfo subject element elementNode previouslySeen =
            .ok r ∧
          jGet r spec.descendantsLabel =
            some (.arr (childObjs.map JValue.obj))))) := by
  refine ⟨jGet_indexByProp, ?_⟩
  intro build spec pinfo subject element elementNode previouslySeen childObjs info hinfo
    hne hmap hnod hlbl htext hby
  refine ⟨?_, ?_, ?_, ?_⟩
  · -- collision error
    intro preC dupC postC hdecomp htim hall hdist hdup
    rw [buildChildren_index_all build spec pinfo subject element elementNode previouslySeen
      childObjs info hinfo hne hmap hnod hlbl hby hall, if_pos htim]
    subst hdecomp
    rw [List.map_append, List.map_cons]
    have hkeys : (preC.map JValue.obj).map (fun v => jvGet v info.id) =
        preC.map (fun c => jGetId c info.id) := by
      rw [List.map_map]
      rfl
    rw [collisionScan_first_dup info.id subject (preC.map JValue.obj) (JValue.obj dupC)
      (postC.map JValue.obj) [] (by rw [List.nil_append, hkeys]; exact hdist)
      (by rw [List.nil_append, hkeys]; exact hdup)]
    rfl
  · -- re-key without throwIfMissing
    intro htim hall
    rw [buildChildren_index_all build spec pinfo subject element elementNode previouslySeen
      childObjs info hinfo hne hmap hnod hlbl hby hall, if_neg (by simp [htim])]
    by_cases ht : composeText spec elementNode ≠ ""
    · rw [if_pos ht]
      exact ⟨_, rfl, by rw [jGet_jSet_ne _ _ _ _ (Ne.symm htext), jGet_jSet_self]⟩
    · rw [if_neg ht]
      exact ⟨_, rfl, by rw [jGet_jSet_self]⟩
  · -- missing identifier with throwIfMissing
    intro preC missC postC hdecomp htim hpre hmiss
    have hallf : childObjs.all (fun c => jHasId c info.id) = false := by
      rw [hdecomp]
      simp [List.all_append, List.all_cons, hmiss]
    rw [buildChildren_index_missing build spec pinfo subject element elementNode
      previouslySeen childObjs info hinfo hne hmap hnod hlbl hby hallf, if_pos htim]
    subst hdecomp
    rw [List.map_append, List.map_cons]
    have hpre2 : ∀ c ∈ preC.map JValue.obj, (fun c => match c with
        | JValue.obj o => !jHasId o info.id
        | _ => true) c = false := by
      intro c hc
      obtain ⟨o, ho, rfl⟩ := List.mem_map.mp hc
      show (!jHasId o info.id) = false
      rw [hpre o ho]
      rfl
    have hmiss2 : (fun c => match c with
        | JValue.obj o => !jHasId o info.id
        | _ => true) (JValue.obj missC) = true := by
      show (!jHasId missC info.id) = true
      rw [hmiss]
      rfl
    rw [find_first_sat (fun c => match c with
      | JValue.obj o => !jHasId o info.id
      | _ => true) (preC.map JValue.obj) (JValue.obj missC) (postC.map JValue.obj)
      hpre2 hmiss2]
    rfl
  · -- missing identifier without throwIfMissing
    intro htim hex
    have hallf : childObjs.all (fun c => jHasId c info.id) = false := by
      obtain ⟨c, hc, hcf⟩ := hex
      cases hall : childObjs.all (fun c => jHasId c info.id) with
      | false => rfl
      | true =>
        have h2 := List.all_eq_true.mp hall c hc
        rw [hcf] at h2
        cases h2
    rw [buildChildren_index_missing build spec pinfo subject element elementNode
      previouslySeen childObjs info hinfo hne hmap hnod hlbl hby hallf,
      if_neg (by simp [htim])]
    by_cases ht : composeText spec elementNode ≠ ""
    · rw [if_pos ht]
      exact ⟨_, rfl, by rw [jGet_jSet_ne _ _ _ _ (Ne.symm htext), jGet_jSet_self]⟩
    · rw [if_neg ht]
      exact ⟨_, rfl, by rw [jGet_jSet_self]⟩

/-- Witness for C9: concrete `by: index` runs — last-entry re-keying, a
collision error under `throwIfMissing`, successful re-keying without it,
the missing-identifier error under `throwIfMissing`, and the untouched
list without it. -/
theorem claim_C9_descendants_by_index_witness :
    jGet (indexByProp (some "name")
        [JValue.obj [("name", JValue.str "k")],
         JValue.obj [("name", JValue.str "k"), ("v", JValue.str "2")]]) "k" =
      some (JValue.obj [("name", JValue.str "k"), ("v", JValue.str "2")]) ∧
    buildChildren attrObjBuilder plainSpec idxThrowParseInfo "/s"
        [("_", JValue.str "Command")] dupChildrenNode [] =
      .error (.solicited "Element collision found: [object]" "/s") ∧
    (∃ r, buildChildren attrObjBuilder plainSpec collisionFalseParseInfo "/s"
          [("_", JValue.str "Command")] distinctChildrenNode [] = .ok r ∧
        jGet r "_children" =
          some (.obj [("k1", JValue.obj [("name", JValue.str "k1")]),
                      ("k2", JValue.obj [("name", JValue.str "k2")])])) ∧
    buildChildren attrObjBuilder plainSpec idxThrowParseInfo "/s"
        [("_", JValue.str "Command")] missChildrenNode [] =
      .error (.solicited
        "Element is missing key attribute \"name\": ([object])" "/s") ∧
    (∃ r, buildChildren attrObjBuilder plainSpec collisionFalseParseInfo "/s"
          [("_", JValue.str "Command")] missChildrenNode [] = .ok r ∧
        jGet r "_children" =
          some (.arr [JValue.obj [("name", JValue.str "k1")], JValue.obj []])) := by
  refine ⟨?_, ?_, ?_, ?_, ?_⟩
  · rw [claim_C9_descendants_by_index.1 (some "name")
      [JValue.obj [("name", JValue.str "k")],
       JValue.obj [("name", JValue.str "k"), ("v", JValue.str "2")]] "k"]
    rfl
  · exact (claim_C9_descendants_by_index.2 attrObjBuilder plainSpec idxThrowParseInfo
      "/s" [("_", JValue.str "Command")] dupChildrenNode []
      [[("name", JValue.str "k")], [("name", JValue.str "k")]]
      _ rfl (List.cons_ne_nil _ _) rfl rfl (by decide) (by decide) rfl).1
      [[("name", JValue.str "k")]] [("name", JValue.str "k")] [] rfl rfl rfl
      (by simp) rfl
  · obtain ⟨r, h1, h2⟩ := (claim_C9_descendants_by_index.2 attrObjBuilder plainSpec
      collisionFalseParseInfo "/s" [("_", JValue.str "Command")] distinctChildrenNode []
      [[("name", JValue.str "k1")], [("name", JValue.str "k2")]]
      _ rfl (List.cons_ne_nil _ _) rfl rfl (by decide) (by decide) rfl).2.1 rfl rfl
    exact ⟨r, h1, h2⟩
  · exact (claim_C9_descendants_by_index.2 attrObjBuilder plainSpec idxThrowParseInfo
      "/s" [("_", JValue.str "Command")] missChildrenNode []
      [[("name", JValue.str "k1")], []]
      _ rfl (List.cons_ne_nil _ _) rfl rfl (by decide) (by decide) rfl).2.2.1
      [[("name", JValue.str "k1")]] [] [] rfl rfl (by decide) rfl
  · obtain ⟨r, h1, h2⟩ := (claim_C9_descendants_by_index.2 attrObjBuilder plainSpec
      collisionFalseParseInfo "/s" [("_", JValue.str "Command")] missChildrenNode []
      [[("name", JValue.str "k1")], []]
      _ rfl (List.cons_ne_nil _ _) rfl rfl (by decide) (by decide) rfl).2.2.2 rfl
      ⟨[], by simp, rfl⟩
    exact ⟨r, h1, h2⟩
